import Mathlib

/-!
# Verification of the vehicle-inventory warehouse service

A shallow embedding of the warehouse routes of the `backend-magazyn`
service (`app/routers/warehouse.py` together with the ORM models of
`app/models.py`) and proofs about them.

Modelling conventions:
* SQLAlchemy tables become lists of records inside a `DB` record;
  autoincrement primary keys become explicit per-table counters.
* Python `float` quantities are modelled as `Rat` (the spec treats them
  as real-number quantities; none of the verified properties depend on
  floating-point rounding).
* `DateTime` values (`func.now()` server defaults) are modelled as ISO
  strings supplied by the caller through a `now` argument; the history
  route compares them with the lexicographic string order, matching the
  string comparisons the SQL layer performs on ISO-formatted values.
* `HTTPException` becomes an `HError` value carrying the status code and
  the message; each route returns `(Except HError <response>) × DB`
  where the second component is the database state that persists after
  the request (on an error the state of the last commit, because the
  session is closed without committing pending changes).
* Queries issued inside a request see committed rows and in-place
  mutations of loaded rows, but not yet-uncommitted `db.add` inserts
  (the session has `autoflush=False`), so the receipt-document loop
  threads mutated committed rows separately from pending inserts.
-/

/-! ## Data model (app/models.py) -/

structure Product where
  id : Nat
  name : String
  category : String
  index : String
  unit : String
  description : Option String
deriving Repr, DecidableEq

structure CarStock where
  id : Nat
  car_plate : String
  product_id : Nat
  quantity : Rat
deriving Repr, DecidableEq

structure StockMovement where
  id : Nat
  timestamp : String
  user_id : Nat
  car_plate : String
  product_id : Nat
  quantity : Rat
  type : String
  place : Option String
deriving Repr, DecidableEq

structure StockReceiveHeader where
  id : Nat
  created_at : String
  document_date : String
  taker_name : String
  giver_name : String
  car_plate : String
  user_id : Nat
deriving Repr, DecidableEq

structure StockReceiveItem where
  id : Nat
  header_id : Nat
  product_id : Nat
  quantity : Rat
deriving Repr, DecidableEq

/-- The authenticated caller, as resolved by `get_current_user`. -/
structure AppUser where
  id : Nat
  car_plate : String
deriving Repr, DecidableEq

/-- The persistent database state: one list per table plus the
autoincrement counters of the tables the warehouse routes insert into. -/
structure DB where
  products : List Product
  car_stock : List CarStock
  movements : List StockMovement
  headers : List StockReceiveHeader
  receive_items : List StockReceiveItem
  next_stock_id : Nat
  next_move_id : Nat
  next_header_id : Nat
  next_item_id : Nat
deriving Repr, DecidableEq

/-- An `HTTPException`: status code and detail message. -/
structure HError where
  code : Nat
  msg : String
deriving Repr, DecidableEq

/-! ## Small query helpers -/

/-- `db.query(Product).filter_by(id=pid).first()` -/
def findProduct (db : DB) (pid : Nat) : Option Product :=
  db.products.find? (fun p => p.id == pid)

/-- `db.query(CarStock).filter(car_plate == plate, product_id == pid).first()` -/
def findStock (stocks : List CarStock) (plate : String) (pid : Nat) : Option CarStock :=
  stocks.find? (fun s => s.car_plate == plate && s.product_id == pid)

/-- Mutate, in place, the first stock row matching `(plate, pid)` —
the row `first()` returned. -/
def updFirst (stocks : List CarStock) (plate : String) (pid : Nat)
    (f : CarStock → CarStock) : List CarStock :=
  match stocks with
  | [] => []
  | s :: rest =>
    if s.car_plate == plate && s.product_id == pid then f s :: rest
    else s :: updFirst rest plate pid f

/-- Decimal rendering of a rational quantity, used inside error
messages (`f"Dostępne tylko: {stock.quantity}"`). -/
def ratStr (q : Rat) : String :=
  if q.den == 1 then toString q.num else toString q.num ++ "/" ++ toString q.den

/-! ## DTOs of the routes -/

/-- `ReceiveRequest` (`quantity` is DTO-validated `gt=0`; validation is
carried as a hypothesis where a property needs it). -/
structure ReceiveRequest where
  product_id : Nat
  quantity : Rat
deriving Repr, DecidableEq

/-- `IssueRequest` (`quantity` DTO-validated `gt=0`). -/
structure IssueRequest where
  product_id : Nat
  quantity : Rat
  place : String
deriving Repr, DecidableEq

/-- `GoodsReceiptItemDto` (`quantity` DTO-validated `gt=0`). -/
structure GoodsReceiptItem where
  product_id : Nat
  quantity : Rat
deriving Repr, DecidableEq

/-- `GoodsReceiptRequestDto`. -/
structure GoodsReceiptRequest where
  document_date : String
  taker_name : String
  giver_name : String
  items : List GoodsReceiptItem
deriving Repr, DecidableEq

/-- `UpdateCarStateItemDto` (`quantity` DTO-validated `ge=0`). -/
structure CarStateItem where
  product_id : Nat
  quantity : Rat
deriving Repr, DecidableEq

/-- The JSON body of a plain status response, carrying only the
constant confirmation string. -/
structure StatusResp where
  status : String
deriving Repr, DecidableEq

/-- The JSON body of a successful receive-document call. -/
structure ReceiptResp where
  status : String
  receipt_id : Nat
deriving Repr, DecidableEq

/-! ## /warehouse/receive (receive_goods) -/

/-- `receive_goods` of `app/routers/warehouse.py`. -/
def receive_goods (db : DB) (user : AppUser) (now : String) (req : ReceiveRequest) :
    (Except HError StatusResp) × DB :=
  match findProduct db req.product_id with
  | none => (Except.error ⟨404, "Produkt nie istnieje"⟩, db)
  | some _ =>
    let db1 :=
      match findStock db.car_stock user.car_plate req.product_id with
      | none =>
        { db with
          car_stock := db.car_stock ++
            [CarStock.mk db.next_stock_id user.car_plate req.product_id req.quantity],
          next_stock_id := db.next_stock_id + 1 }
      | some _ =>
        let stocks := updFirst db.car_stock user.car_plate req.product_id
          (fun s => { s with quantity := s.quantity + req.quantity })
        { db with car_stock := stocks }
    let move : StockMovement :=
      ⟨db1.next_move_id, now, user.id, user.car_plate, req.product_id,
        req.quantity, "IN", none⟩
    (Except.ok ⟨"OK"⟩,
      { db1 with movements := db1.movements ++ [move],
                 next_move_id := db1.next_move_id + 1 })

/-! ## /warehouse/issue (issue_goods) -/

/-- `issue_goods` of `app/routers/warehouse.py`. -/
def issue_goods (db : DB) (user : AppUser) (now : String) (req : IssueRequest) :
    (Except HError StatusResp) × DB :=
  match findProduct db req.product_id with
  | none => (Except.error ⟨404, "Produkt nie istnieje"⟩, db)
  | some _ =>
    match findStock db.car_stock user.car_plate req.product_id with
    | none => (Except.error ⟨400, "Brak produktu w aucie"⟩, db)
    | some stock =>
      if stock.quantity < req.quantity then
        (Except.error ⟨400, "Dostępne tylko: " ++ ratStr stock.quantity⟩, db)
      else
        let stocks := updFirst db.car_stock user.car_plate req.product_id
          (fun s => { s with quantity := s.quantity - req.quantity })
        let db1 := { db with car_stock := stocks }
        let move : StockMovement :=
          ⟨db1.next_move_id, now, user.id, user.car_plate, req.product_id,
            -req.quantity, "OUT", some req.place⟩
        (Except.ok ⟨"OK"⟩,
          { db1 with movements := db1.movements ++ [move],
                     next_move_id := db1.next_move_id + 1 })

/-- The current snapshot quantity of a `(plate, product)` pair; a
missing row is equivalent to quantity 0 (spec section 3). -/
def stockQty (db : DB) (plate : String) (pid : Nat) : Rat :=
  match findStock db.car_stock plate pid with
  | none => 0
  | some s => s.quantity

/-! ## /warehouse/update-car-state (update_car_state) -/

/-- The loop body of `update_car_state`: for every supplied item with
positive quantity, one fresh stock row and one IN movement; items with
`quantity <= 0` are skipped (`continue`). Returns the inserted rows and
the advanced id counters. -/
def resetLoop (plate : String) (uid : Nat) (now : String)
    (items : List CarStateItem) (sid mid : Nat) :
    List CarStock × List StockMovement × Nat × Nat :=
  match items with
  | [] => ([], [], sid, mid)
  | it :: rest =>
    if it.quantity ≤ 0 then resetLoop plate uid now rest sid mid
    else
      let r := resetLoop plate uid now rest (sid + 1) (mid + 1)
      (CarStock.mk sid plate it.product_id it.quantity :: r.1,
       StockMovement.mk mid now uid plate it.product_id it.quantity "IN" none :: r.2.1,
       r.2.2.1, r.2.2.2)

/-- `update_car_state` of `app/routers/warehouse.py`: delete every
stock row of the caller's vehicle, then insert afresh from the request. -/
def update_car_state (db : DB) (user : AppUser) (now : String)
    (items : List CarStateItem) : (Except HError StatusResp) × DB :=
  let kept := db.car_stock.filter (fun s => s.car_plate != user.car_plate)
  let r := resetLoop user.car_plate user.id now items db.next_stock_id db.next_move_id
  (Except.ok ⟨"OK"⟩,
    { db with
      car_stock := kept ++ r.1,
      movements := db.movements ++ r.2.1,
      next_stock_id := r.2.2.1,
      next_move_id := r.2.2.2 })

/-! ## Date parsing (datetime.date.fromisoformat) -/

/-- Leap-year rule of the proleptic Gregorian calendar. -/
def isLeap (y : Nat) : Bool :=
  y % 4 == 0 && (y % 100 != 0 || y % 400 == 0)

/-- Days in a month. -/
def daysInMonth (y m : Nat) : Nat :=
  if m == 2 then (if isLeap y then 29 else 28)
  else if m == 4 || m == 6 || m == 9 || m == 11 then 30
  else 31

/-- Two decimal digits to a number, if both characters are digits. -/
def twoDigits? (a b : Char) : Option Nat :=
  if a.isDigit && b.isDigit then
    some ((a.toNat - 48) * 10 + (b.toNat - 48))
  else none

/-- `date.fromisoformat`: accepts exactly `YYYY-MM-DD` with a valid
calendar date, returning `(year, month, day)`. -/
def dateFromIso? (s : String) : Option (Nat × Nat × Nat) :=
  match s.toList with
  | [y1, y2, y3, y4, '-', m1, m2, '-', d1, d2] =>
    match twoDigits? y1 y2, twoDigits? y3 y4, twoDigits? m1 m2, twoDigits? d1 d2 with
    | some yh, some yl, some m, some d =>
      let y := yh * 100 + yl
      if 1 ≤ m && m ≤ 12 && 1 ≤ d && d ≤ daysInMonth y m then some (y, m, d)
      else none
    | _, _, _, _ => none
  | _ => none

/-! ## String normalization (str.strip / str.title) -/

/-- Python `str.strip()` with no arguments: drop leading and trailing
whitespace. -/
def pyStrip (s : String) : String :=
  String.mk (((s.toList.dropWhile Char.isWhitespace).reverse.dropWhile
    Char.isWhitespace).reverse)

/-- One pass of Python `str.title()`: an alphabetic character directly
preceded by an alphabetic character is lowercased, any other alphabetic
character is uppercased. -/
def pyTitleGo (prevAlpha : Bool) : List Char → List Char
  | [] => []
  | c :: rest =>
    if c.isAlpha then
      (if prevAlpha then c.toLower else c.toUpper) :: pyTitleGo true rest
    else c :: pyTitleGo false rest

/-- Python `str.title()`. -/
def pyTitle (s : String) : String :=
  String.mk (pyTitleGo false s.toList)

/-! ## /warehouse/receive-document (create_goods_receipt) -/

/-- The session state threaded through the item loop of
`create_goods_receipt`: committed stock rows (with any in-place
mutations done so far), pending inserts, and the id counters. Queries
see only `updated` — pending inserts are invisible because the session
has `autoflush=False`. -/
structure LoopState where
  updated : List CarStock
  pendStocks : List CarStock
  pendItems : List StockReceiveItem
  pendMoves : List StockMovement
  next_stock_id : Nat
  next_item_id : Nat
  next_move_id : Nat
deriving Repr, DecidableEq

/-- The item loop of `create_goods_receipt`: per item, abort with 404
when the product id is unknown, otherwise stage one receipt item, the
snapshot upsert and one IN movement. -/
def receiptLoop (db : DB) (user : AppUser) (now : String) (hid : Nat)
    (items : List GoodsReceiptItem) (st : LoopState) : Except HError LoopState :=
  match items with
  | [] => Except.ok st
  | it :: rest =>
    match findProduct db it.product_id with
    | none =>
      Except.error ⟨404, "Produkt ID=" ++ toString it.product_id ++ " nie istnieje"⟩
    | some _ =>
      let st1 := { st with
        pendItems := st.pendItems ++
          [StockReceiveItem.mk st.next_item_id hid it.product_id it.quantity],
        next_item_id := st.next_item_id + 1 }
      let st2 :=
        match findStock st1.updated user.car_plate it.product_id with
        | none =>
          { st1 with
            pendStocks := st1.pendStocks ++
              [CarStock.mk st1.next_stock_id user.car_plate it.product_id it.quantity],
            next_stock_id := st1.next_stock_id + 1 }
        | some _ =>
          let stocks := updFirst st1.updated user.car_plate it.product_id
            (fun s => { s with quantity := s.quantity + it.quantity })
          { st1 with updated := stocks }
      let st3 := { st2 with
        pendMoves := st2.pendMoves ++
          [StockMovement.mk st2.next_move_id now user.id user.car_plate
            it.product_id it.quantity "IN" none],
        next_move_id := st2.next_move_id + 1 }
      receiptLoop db user now hid rest st3

/-- `create_goods_receipt` of `app/routers/warehouse.py`. The header is
committed (and its id fixed) before the items are processed; when an
item aborts the request, the header stays persisted while the staged
loop changes are discarded with the session. -/
def create_goods_receipt (db : DB) (user : AppUser) (now : String)
    (req : GoodsReceiptRequest) : (Except HError ReceiptResp) × DB :=
  match dateFromIso? req.document_date with
  | none => (Except.error ⟨400, "Nieprawidłowy format daty (YYYY-MM-DD)"⟩, db)
  | some _ =>
    let header : StockReceiveHeader :=
      ⟨db.next_header_id, now, req.document_date,
       pyTitle (pyStrip req.taker_name), pyTitle (pyStrip req.giver_name),
       user.car_plate, user.id⟩
    let db1 := { db with headers := db.headers ++ [header],
                         next_header_id := db.next_header_id + 1 }
    match receiptLoop db1 user now header.id req.items
        ⟨db1.car_stock, [], [], [], db1.next_stock_id, db1.next_item_id,
         db1.next_move_id⟩ with
    | Except.error e => (Except.error e, db1)
    | Except.ok st =>
      (Except.ok ⟨"OK", header.id⟩,
       { db1 with
         car_stock := st.updated ++ st.pendStocks,
         receive_items := db1.receive_items ++ st.pendItems,
         movements := db1.movements ++ st.pendMoves,
         next_stock_id := st.next_stock_id,
         next_item_id := st.next_item_id,
         next_move_id := st.next_move_id })

/-! ## /warehouse/receipt (get_receipt, export_receipt_excel) -/

/-- `GoodsReceiptDetailsItemDto`. -/
structure ReceiptDetailsItem where
  product_id : Nat
  name : String
  index : String
  unit : String
  quantity : Rat
deriving Repr, DecidableEq

/-- `GoodsReceiptDetailsDto`. -/
structure ReceiptDetails where
  id : Nat
  document_date : String
  taker_name : String
  giver_name : String
  items : List ReceiptDetailsItem
deriving Repr, DecidableEq

/-- The `header.items` relationship: the receipt items whose
`header_id` points at the header, each joined to its product (the
foreign key guarantees the product exists in a live database). -/
def headerItems (db : DB) (hid : Nat) : List (StockReceiveItem × Product) :=
  (db.receive_items.filter (fun r => r.header_id == hid)).filterMap
    (fun r => (findProduct db r.product_id).map (fun p => (r, p)))

/-- `get_receipt` of `app/routers/warehouse.py`. -/
def get_receipt (db : DB) (user : AppUser) (receipt_id : Nat) :
    Except HError ReceiptDetails :=
  match db.headers.find? (fun h => h.id == receipt_id) with
  | none => Except.error ⟨404, "Dokument pobrania nie istnieje"⟩
  | some h =>
    if h.car_plate != user.car_plate then Except.error ⟨403, "Brak dostępu"⟩
    else
      Except.ok ⟨h.id, h.document_date, h.taker_name, h.giver_name,
        (headerItems db h.id).map
          (fun rp => ⟨rp.2.id, rp.2.name, rp.2.index, rp.2.unit, rp.1.quantity⟩)⟩

/-- The worksheet content and download filename the excel export
produces; the spreadsheet rendering itself is an external concern and
the modelled contract stops at the appended rows. -/
structure ExcelExport where
  rows : List (List String)
  filename : String
deriving Repr, DecidableEq

/-- `export_receipt_excel` of `app/routers/warehouse.py`. -/
def export_receipt_excel (db : DB) (user : AppUser) (receipt_id : Nat) :
    Except HError ExcelExport :=
  match db.headers.find? (fun h => h.id == receipt_id) with
  | none => Except.error ⟨404, "Dokument nie istnieje"⟩
  | some h =>
    if h.car_plate != user.car_plate then Except.error ⟨403, "Brak dostępu"⟩
    else
      Except.ok ⟨
        [["Data", h.document_date],
         ["Pobierający", h.taker_name],
         ["Wydający", h.giver_name],
         [],
         ["Produkt", "Indeks", "Jednostka", "Ilość"]] ++
        (headerItems db h.id).map
          (fun rp => [rp.2.name, rp.2.index, rp.2.unit, ratStr rp.1.quantity]),
        "pobranie_" ++ toString receipt_id ++ ".xlsx"⟩

/-! ## /warehouse/history (history) -/

/-- `MovementItem` response row. -/
structure HistoryRow where
  id : Nat
  timestamp : String
  product_id : Nat
  product_name : String
  index : String
  quantity : Rat
  type : String
  place : Option String
deriving Repr, DecidableEq

/-- Insert a joined row into a timestamp-descending list: it goes in
front of the first strictly older row. -/
def insertTsDesc (x : StockMovement × Product) :
    List (StockMovement × Product) → List (StockMovement × Product)
  | [] => [x]
  | y :: ys =>
    if compare x.1.timestamp y.1.timestamp == Ordering.gt then x :: y :: ys
    else y :: insertTsDesc x ys

/-- `ORDER BY timestamp DESC` as a stable insertion sort. -/
def sortTsDesc : List (StockMovement × Product) → List (StockMovement × Product)
  | [] => []
  | x :: xs => insertTsDesc x (sortTsDesc xs)

/-- The join of the history query: every movement row paired with its
product (`JOIN products ON products.id == stock_movements.product_id`),
restricted to the caller's vehicle. -/
def historyBase (db : DB) (user : AppUser) : List (StockMovement × Product) :=
  (db.movements.filterMap
    (fun m => (findProduct db m.product_id).map (fun p => (m, p)))).filter
      (fun mp => mp.1.car_plate == user.car_plate)

/-- `if product_id: q = q.filter(product_id == product_id)` — applied
only when the supplied value is truthy (present and non-zero). -/
def stagePid (pidq : Option Nat) (l : List (StockMovement × Product)) :
    List (StockMovement × Product) :=
  match pidq with
  | none => l
  | some pid => if pid != 0 then l.filter (fun mp => mp.1.product_id == pid) else l

/-- `if type: q = q.filter(type == type)` — applied only when the
supplied value is truthy (present and non-empty). -/
def stageTy (tyq : Option String) (l : List (StockMovement × Product)) :
    List (StockMovement × Product) :=
  match tyq with
  | none => l
  | some t => if t != "" then l.filter (fun mp => mp.1.type == t) else l

/-- `if date_from: q = q.filter(timestamp >= date_from)`. -/
def stageFrom (dfq : Option String) (l : List (StockMovement × Product)) :
    List (StockMovement × Product) :=
  match dfq with
  | none => l
  | some lo =>
    if lo != "" then l.filter (fun mp => compare mp.1.timestamp lo != Ordering.lt)
    else l

/-- `if date_to: q = q.filter(timestamp <= date_to)`. -/
def stageTo (dtq : Option String) (l : List (StockMovement × Product)) :
    List (StockMovement × Product) :=
  match dtq with
  | none => l
  | some hi =>
    if hi != "" then l.filter (fun mp => compare mp.1.timestamp hi != Ordering.gt)
    else l

/-- `history` of `app/routers/warehouse.py`. Each optional filter is
guarded by Python truthiness (`if product_id:` etc.), so a supplied
`0` or `""` behaves like an absent filter. -/
def history (db : DB) (user : AppUser) (pidq : Option Nat) (tyq : Option String)
    (dfq dtq : Option String) : List HistoryRow :=
  (sortTsDesc (stageTo dtq (stageFrom dfq (stageTy tyq
      (stagePid pidq (historyBase db user)))))).map (fun mp =>
    ⟨mp.1.id, mp.1.timestamp, mp.2.id, mp.2.name, mp.2.index,
     mp.1.quantity, mp.1.type, mp.1.place⟩)

/-! ## Consumption report (spec section 4.6) -/

/-- A calendar date. -/
structure CalDate where
  year : Nat
  month : Nat
  day : Nat
deriving Repr, DecidableEq

/-- Zero-padded two-digit rendering. -/
def pad2 (n : Nat) : String :=
  if n < 10 then "0" ++ toString n else toString n

/-- Zero-padded four-digit rendering. -/
def pad4 (n : Nat) : String :=
  if n < 10 then "000" ++ toString n
  else if n < 100 then "00" ++ toString n
  else if n < 1000 then "0" ++ toString n
  else toString n

/-- ISO rendering of a calendar date. -/
def isoDate (d : CalDate) : String :=
  pad4 d.year ++ "-" ++ pad2 d.month ++ "-" ++ pad2 d.day

/-- The day after a calendar date. -/
def nextDay (d : CalDate) : CalDate :=
  if d.day < daysInMonth d.year d.month then ⟨d.year, d.month, d.day + 1⟩
  else if d.month < 12 then ⟨d.year, d.month + 1, 1⟩
  else ⟨d.year + 1, 1, 1⟩

/-- Midnight timestamp of a calendar date, in the ISO string form the
movement timestamps use. -/
def atMidnight (d : CalDate) : String :=
  isoDate d ++ " 00:00:00"

/-- Does a movement fall into the report window of the caller's
vehicle: an OUT-type entry of the vehicle with timestamp in
[date_from at 00:00, date_to+1 day at 00:00)? -/
def inReportWindow (plate : String) (dfrom dto : CalDate) (m : StockMovement) : Bool :=
  m.car_plate == plate && m.type == "OUT" &&
    compare m.timestamp (atMidnight dfrom) != Ordering.lt &&
    compare m.timestamp (atMidnight (nextDay dto)) == Ordering.lt

/-- One-row-per-value deduplication (keeps the last occurrence). -/
def dedupPids : List Nat → List Nat
  | [] => []
  | x :: xs => if x ∈ xs then dedupPids xs else x :: dedupPids xs

/-- One aggregated report row: a product and its positive used
quantity. -/
structure ReportRow where
  product_id : Nat
  used : Rat
deriving Repr, DecidableEq

/-- The summed (negative) OUT quantity of one product inside the
window, negated into a positive used quantity. -/
def usedQty (db : DB) (plate : String) (dfrom dto : CalDate) (pid : Nat) : Rat :=
  -(((db.movements.filter (inReportWindow plate dfrom dto)).filter
      (fun m => m.product_id == pid)).map (fun m => m.quantity)).sum

/-- Modelled from the spec: the Consumption Report endpoint (spec
section 4.6) is not among the provided source files — only the spec
describes it. Query all OUT-type movement rows of the caller's vehicle
with timestamp in [date_from at 00:00, date_to+1 day at 00:00), group
them by product, negate each product's (negative) quantity sum into a
positive used quantity, drop any product whose used quantity is not
positive, and fail with NoData when nothing remains. The place label
and the render format do not influence the aggregated rows. -/
def consumption_report (db : DB) (user : AppUser) (dfrom dto : CalDate) :
    Except HError (List ReportRow) :=
  let outs := db.movements.filter (inReportWindow user.car_plate dfrom dto)
  let pids := dedupPids (outs.map (fun m => m.product_id))
  let rows := pids.filterMap (fun pid =>
    let used := usedQty db user.car_plate dfrom dto pid
    if used ≤ 0 then none else some (ReportRow.mk pid used))
  if rows.isEmpty then Except.error ⟨404, "NoData"⟩ else Except.ok rows

/-! ## Operation sequences over the warehouse state -/

/-- One warehouse request, with the authenticated caller and the server
time it runs at. -/
inductive Op where
  | receive (user : AppUser) (now : String) (req : ReceiveRequest)
  | issue (user : AppUser) (now : String) (req : IssueRequest)
  | reset (user : AppUser) (now : String) (items : List CarStateItem)
  | receiptDoc (user : AppUser) (now : String) (req : GoodsReceiptRequest)

/-- The database state persisting after a request, whether it succeeds
or fails. -/
def applyOp (db : DB) : Op → DB
  | Op.receive u now r => (receive_goods db u now r).2
  | Op.issue u now r => (issue_goods db u now r).2
  | Op.reset u now its => (update_car_state db u now its).2
  | Op.receiptDoc u now r => (create_goods_receipt db u now r).2

/-- A sequence of requests. -/
def applyOps (db : DB) (ops : List Op) : DB :=
  ops.foldl applyOp db

/-- The DTO validation FastAPI performs before a route body runs:
`gt=0` on receive, issue and receipt-item quantities, `ge=0` on
reset quantities. -/
def opValid : Op → Prop
  | Op.receive _ _ r => 0 < r.quantity
  | Op.issue _ _ r => 0 < r.quantity
  | Op.reset _ _ its => ∀ it ∈ its, 0 ≤ it.quantity
  | Op.receiptDoc _ _ r => ∀ it ∈ r.items, 0 < it.quantity

instance : DecidablePred opValid := fun op => by
  cases op with
  | receive u now r => exact inferInstanceAs (Decidable (0 < r.quantity))
  | issue u now r => exact inferInstanceAs (Decidable (0 < r.quantity))
  | reset u now its => exact inferInstanceAs (Decidable (∀ it ∈ its, 0 ≤ it.quantity))
  | receiptDoc u now r => exact inferInstanceAs (Decidable (∀ it ∈ r.items, 0 < it.quantity))

/-- The snapshot invariant of spec section 3: every existing stock row
has a non-negative quantity. -/
def stockNonneg (db : DB) : Prop :=
  ∀ s ∈ db.car_stock, 0 ≤ s.quantity

instance : DecidablePred stockNonneg := fun db =>
  inferInstanceAs (Decidable (∀ s ∈ db.car_stock, 0 ≤ s.quantity))

/-- The ledger sign invariant of spec section 3: an OUT entry is
negative, any other entry non-negative. -/
def moveSignOk (m : StockMovement) : Prop :=
  if m.type = "OUT" then m.quantity < 0 else 0 ≤ m.quantity

instance : DecidablePred moveSignOk := fun m => by
  unfold moveSignOk; infer_instance

/-- Every ledger row satisfies the sign invariant. -/
def ledgerSignOk (db : DB) : Prop :=
  ∀ m ∈ db.movements, moveSignOk m

instance : DecidablePred ledgerSignOk := fun db =>
  inferInstanceAs (Decidable (∀ m ∈ db.movements, moveSignOk m))

/-- A Receive or Issue call on one fixed product, as used by the
fresh-pair ledger property. -/
inductive RIOp where
  | recv (q : Rat)
  | iss (q : Rat) (place : String)
deriving Repr, DecidableEq

/-- The signed snapshot delta a Receive/Issue call applies. -/
def riDelta : RIOp → Rat
  | RIOp.recv q => q
  | RIOp.iss q _ => -q

/-- Run a sequence of Receive/Issue calls of one user on one product,
failing the whole run as soon as one call fails. -/
def runRI (db : DB) (u : AppUser) (now : String) (pid : Nat) :
    List RIOp → Option DB
  | [] => some db
  | op :: rest =>
    let res := match op with
      | RIOp.recv q => receive_goods db u now ⟨pid, q⟩
      | RIOp.iss q pl => issue_goods db u now ⟨pid, q, pl⟩
    match res.1 with
    | Except.error _ => none
    | Except.ok _ => runRI res.2 u now pid rest

/-! ## A substring test (for reasoning about error messages) -/

/-- Is `p` an initial segment of `l`? -/
def charsHaveStart (p l : List Char) : Bool :=
  match p, l with
  | [], _ => true
  | _ :: _, [] => false
  | a :: as, b :: bs => a == b && charsHaveStart as bs

/-- Does `p` occur contiguously inside `l`? -/
def charsContain (l p : List Char) : Bool :=
  match l with
  | [] => charsHaveStart p []
  | _ :: rest => charsHaveStart p l || charsContain rest p

/-- Does the string `pat` occur inside `s`? -/
def strContains (s pat : String) : Bool :=
  charsContain s.toList pat.toList

/-- The observable content of a ledger row apart from its id, author
and timestamp: product, signed quantity, type tag and place. -/
def moveData (m : StockMovement) : Nat × Rat × String × Option String :=
  (m.product_id, m.quantity, m.type, m.place)

/-! ## Concrete fixtures -/

/-- A two-product catalog. -/
def exProducts : List Product :=
  [⟨1, "Kabel YDY 3x1,5", "Elektryka", "KAB-015", "m", none⟩,
   ⟨2, "Gniazdo podwójne", "Elektryka", "GNI-002", "szt", none⟩]

/-- An empty warehouse over the two-product catalog. -/
def exDb : DB := ⟨exProducts, [], [], [], [], 1, 1, 1, 1⟩

/-- The caller. -/
def exUser : AppUser := ⟨1, "WX12345"⟩

/-- A caller bound to a different vehicle. -/
def exUserB : AppUser := ⟨2, "GD99999"⟩

/-- Ledger fixture realizing the spec's consumption-report example:
OUT entries of -3 and -5 and an IN entry of +2 for product 7, all
inside May 2024. -/
def repDb : DB :=
  { products := exProducts
    car_stock := []
    movements :=
      [⟨1, "2024-05-10 08:00:00", 1, "WX12345", 7, -3, "OUT", some "Budowa A"⟩,
       ⟨2, "2024-05-12 09:30:00", 1, "WX12345", 7, -5, "OUT", some "Budowa B"⟩,
       ⟨3, "2024-05-13 10:00:00", 1, "WX12345", 7, 2, "IN", none⟩]
    headers := []
    receive_items := []
    next_stock_id := 1
    next_move_id := 4
    next_header_id := 1
    next_item_id := 1 }

/-- Fixture for the history witness: one IN movement of product 1 on
the caller's vehicle. -/
def histDb : DB :=
  { exDb with
    movements := [⟨1, "2024-05-10 09:00:00", 1, "WX12345", 1, 5, "IN", none⟩],
    next_move_id := 2 }

/-! ## Theorems -/

/-- C1: the claim demands that a Receipt Document creation hitting an
unknown product id leaves no side effects, in particular no
ReceiptHeader row. The code commits the header before validating the
items, so on this failing input the operation aborts with NotFound yet
the header row persists (the staged items, snapshot changes and
movements are discarded with the uncommitted session). -/
theorem receipt_unknown_product_leaves_partial_header :
    create_goods_receipt exDb exUser "2024-05-10 09:00:00"
        ⟨"2024-05-10", " jan kowalski ", "adam NOWAK", [⟨1, 2⟩, ⟨99, 5⟩]⟩ =
      (Except.error ⟨404, "Produkt ID=99 nie istnieje"⟩,
       { exDb with
         headers := [⟨1, "2024-05-10 09:00:00", "2024-05-10", "Jan Kowalski",
                      "Adam Nowak", "WX12345", 1⟩],
         next_header_id := 2 }) := by
  rfl

/-- C3 counterexample: the movement rows a Receipt Document creation
appends carry no back-reference to the created header. Two runs that
differ only in the id the created header receives (1 versus 5) append
identical movement rows, so the entries cannot reference the header id. -/
theorem receipt_movements_carry_no_header_reference :
    ((create_goods_receipt exDb exUser "2024-05-10 09:00:00"
        ⟨"2024-05-10", "Jan", "Adam", [⟨1, 2⟩]⟩).1 = Except.ok ⟨"OK", 1⟩) ∧
    ((create_goods_receipt { exDb with next_header_id := 5 } exUser "2024-05-10 09:00:00"
        ⟨"2024-05-10", "Jan", "Adam", [⟨1, 2⟩]⟩).1 = Except.ok ⟨"OK", 5⟩) ∧
    ((create_goods_receipt exDb exUser "2024-05-10 09:00:00"
        ⟨"2024-05-10", "Jan", "Adam", [⟨1, 2⟩]⟩).2.movements =
     (create_goods_receipt { exDb with next_header_id := 5 } exUser "2024-05-10 09:00:00"
        ⟨"2024-05-10", "Jan", "Adam", [⟨1, 2⟩]⟩).2.movements) ∧
    (create_goods_receipt exDb exUser "2024-05-10 09:00:00"
        ⟨"2024-05-10", "Jan", "Adam", [⟨1, 2⟩]⟩).2.movements.length = 1 := by
  refine ⟨rfl, rfl, rfl, rfl⟩

/-- C4 counterexample: Receive and Issue do not return the new snapshot
quantity. Two successful Receive calls whose resulting snapshot
quantities differ (10 versus 15) return the same constant body, and a
successful Issue returns that same constant body as well. -/
theorem receive_issue_return_constant_status :
    ((receive_goods exDb exUser "t1" ⟨1, 10⟩).1 = Except.ok ⟨"OK"⟩) ∧
    ((receive_goods { exDb with
        car_stock := [⟨1, "WX12345", 1, 5⟩], next_stock_id := 2 }
        exUser "t1" ⟨1, 10⟩).1 = Except.ok ⟨"OK"⟩) ∧
    stockQty (receive_goods exDb exUser "t1" ⟨1, 10⟩).2 "WX12345" 1 = 10 ∧
    stockQty (receive_goods { exDb with
        car_stock := [⟨1, "WX12345", 1, 5⟩], next_stock_id := 2 }
        exUser "t1" ⟨1, 10⟩).2 "WX12345" 1 = 15 ∧
    ((issue_goods { exDb with
        car_stock := [⟨1, "WX12345", 1, 5⟩], next_stock_id := 2 }
        exUser "t1" ⟨1, 2, "SiteA"⟩).1 = Except.ok ⟨"OK"⟩) := by
  refine ⟨rfl, rfl, rfl, ?_, rfl⟩
  norm_num [stockQty, receive_goods, findProduct, findStock, updFirst, exDb, exProducts, exUser]

/-- C5 counterexample: when no snapshot row exists the Issue failure
message is a fixed text that does not report the available quantity —
it does not even contain the digits of the available amount 0. -/
theorem issue_missing_row_message_lacks_quantity :
    (issue_goods exDb exUser "t1" ⟨1, 3, "SiteA"⟩ =
      (Except.error ⟨400, "Brak produktu w aucie"⟩, exDb)) ∧
    stockQty exDb "WX12345" 1 = 0 ∧
    strContains "Brak produktu w aucie" (ratStr 0) = false := by
  refine ⟨rfl, rfl, rfl⟩

/-- C6 counterexample: requesting a receipt document of another
vehicle fails with 403 Forbidden ("Brak dostępu"), not with 404
NotFound as the claim states — for the details route and the excel
export alike. -/
theorem foreign_receipt_fails_with_403_not_404 :
    (get_receipt { exDb with
        headers := [⟨1, "t0", "2024-05-10", "Jan", "Adam", "GD99999", 2⟩],
        next_header_id := 2 } exUser 1 =
      Except.error ⟨403, "Brak dostępu"⟩) ∧
    (export_receipt_excel { exDb with
        headers := [⟨1, "t0", "2024-05-10", "Jan", "Adam", "GD99999", 2⟩],
        next_header_id := 2 } exUser 1 =
      Except.error ⟨403, "Brak dostępu"⟩) ∧
    (403 ≠ 404) := by
  refine ⟨rfl, rfl, by decide⟩

/-! ## Helper lemmas about stock lookup and in-place update -/

theorem findStock_decode {stocks : List CarStock} {plate : String} {pid : Nat}
    {s : CarStock} (h : findStock stocks plate pid = some s) :
    s ∈ stocks ∧ s.car_plate = plate ∧ s.product_id = pid := by
  refine ⟨List.mem_of_find?_eq_some h, ?_⟩
  have hp := List.find?_some h
  simp only [Bool.and_eq_true, beq_iff_eq] at hp
  exact hp

theorem findStock_updFirst (stocks : List CarStock) (plate : String) (pid : Nat)
    (f : CarStock → CarStock)
    (hf : ∀ s, (f s).car_plate = s.car_plate ∧ (f s).product_id = s.product_id) :
    findStock (updFirst stocks plate pid f) plate pid =
      (findStock stocks plate pid).map f := by
  induction stocks with
  | nil => rfl
  | cons s rest ih =>
    by_cases h : (s.car_plate == plate && s.product_id == pid) = true
    · have h2 : ((f s).car_plate == plate && (f s).product_id == pid) = true := by
        rcases hf s with ⟨h3, h4⟩
        simp only [h3, h4]
        exact h
      simp [updFirst, findStock, h, List.find?_cons, h2]
    · simp only [updFirst, findStock, h, if_neg, Bool.not_eq_true]
      simp only [findStock] at ih
      simp [List.find?_cons, h, ih]

theorem mem_updFirst {stocks : List CarStock} {plate : String} {pid : Nat}
    {f : CarStock → CarStock} {x : CarStock} (hx : x ∈ updFirst stocks plate pid f) :
    x ∈ stocks ∨ ∃ s, findStock stocks plate pid = some s ∧ x = f s := by
  induction stocks with
  | nil => simp only [updFirst] at hx; cases hx
  | cons s rest ih =>
    by_cases h : (s.car_plate == plate && s.product_id == pid) = true
    · simp only [updFirst, h, if_pos] at hx
      rcases List.mem_cons.mp hx with h1 | h1
      · exact Or.inr ⟨s, by simp [findStock, List.find?_cons, h], h1⟩
      · exact Or.inl (List.mem_cons_of_mem _ h1)
    · simp only [updFirst, h, if_neg, Bool.not_eq_true] at hx
      rcases List.mem_cons.mp hx with h1 | h1
      · exact Or.inl (h1 ▸ List.mem_cons_self _ _)
      · rcases ih h1 with h2 | ⟨s2, h3, h4⟩
        · exact Or.inl (List.mem_cons_of_mem _ h2)
        · refine Or.inr ⟨s2, ?_, h4⟩
          simp only [findStock] at h3
          simp [findStock, List.find?_cons, h, h3]

theorem findStock_self (plate : String) (pid : Nat) (sid : Nat) (q : Rat) :
    findStock [CarStock.mk sid plate pid q] plate pid = some (CarStock.mk sid plate pid q) := by
  simp [findStock]

/-! ## Per-operation effect lemmas -/

theorem stockQty_receive_ok {db : DB} {u : AppUser} {now : String}
    {req : ReceiveRequest} {r : StatusResp} {db2 : DB}
    (h : receive_goods db u now req = (Except.ok r, db2)) :
    stockQty db2 u.car_plate req.product_id =
      stockQty db u.car_plate req.product_id + req.quantity := by
  unfold receive_goods at h
  cases hfp : findProduct db req.product_id with
  | none => rw [hfp] at h; exact absurd h (by simp)
  | some p =>
    rw [hfp] at h
    cases hfs : findStock db.car_stock u.car_plate req.product_id with
    | none =>
      rw [hfs] at h
      dsimp only at h
      simp only [Prod.mk.injEq] at h
      obtain ⟨-, h2⟩ := h
      subst h2
      simp only [stockQty, findStock, List.find?_append]
      simp only [findStock] at hfs
      simp [hfs, List.find?_cons]
    | some s =>
      rw [hfs] at h
      dsimp only at h
      simp only [Prod.mk.injEq] at h
      obtain ⟨-, h2⟩ := h
      subst h2
      simp only [stockQty]
      rw [findStock_updFirst db.car_stock u.car_plate req.product_id
        (fun s => { s with quantity := s.quantity + req.quantity })
        (fun s => ⟨rfl, rfl⟩), hfs]
      rfl

theorem stockQty_issue_ok {db : DB} {u : AppUser} {now : String}
    {req : IssueRequest} {r : StatusResp} {db2 : DB}
    (h : issue_goods db u now req = (Except.ok r, db2)) :
    stockQty db2 u.car_plate req.product_id =
      stockQty db u.car_plate req.product_id - req.quantity ∧
    req.quantity ≤ stockQty db u.car_plate req.product_id := by
  unfold issue_goods at h
  cases hfp : findProduct db req.product_id with
  | none => rw [hfp] at h; exact absurd h (by simp)
  | some p =>
    rw [hfp] at h
    cases hfs : findStock db.car_stock u.car_plate req.product_id with
    | none => rw [hfs] at h; exact absurd h (by simp)
    | some s =>
      rw [hfs] at h
      dsimp only at h
      by_cases hlt : s.quantity < req.quantity
      · rw [if_pos hlt] at h; exact absurd h (by simp)
      · rw [if_neg hlt] at h
        simp only [Prod.mk.injEq] at h
        obtain ⟨-, h2⟩ := h
        subst h2
        constructor
        · simp only [stockQty]
          rw [findStock_updFirst db.car_stock u.car_plate req.product_id
            (fun s => { s with quantity := s.quantity - req.quantity })
            (fun s => ⟨rfl, rfl⟩), hfs]
          rfl
        · simp only [stockQty, hfs]
          exact le_of_not_lt hlt

theorem stockNonneg_receive (db : DB) (u : AppUser) (now : String)
    (req : ReceiveRequest) (hq : 0 ≤ req.quantity) (h : stockNonneg db) :
    stockNonneg (receive_goods db u now req).2 := by
  unfold receive_goods
  cases hfp : findProduct db req.product_id with
  | none => exact h
  | some p =>
    cases hfs : findStock db.car_stock u.car_plate req.product_id with
    | none =>
      intro s hs
      dsimp only at hs
      rcases List.mem_append.mp hs with h1 | h1
      · exact h s h1
      · rcases List.mem_cons.mp h1 with h2 | h2
        · subst h2; exact hq
        · cases h2
    | some s0 =>
      intro s hs
      dsimp only at hs
      rcases mem_updFirst hs with h1 | ⟨s1, h2, h3⟩
      · exact h s h1
      · subst h3
        exact add_nonneg (h s1 (findStock_decode h2).1) hq

theorem stockNonneg_issue (db : DB) (u : AppUser) (now : String)
    (req : IssueRequest) (h : stockNonneg db) :
    stockNonneg (issue_goods db u now req).2 := by
  unfold issue_goods
  cases hfp : findProduct db req.product_id with
  | none => exact h
  | some p =>
    cases hfs : findStock db.car_stock u.car_plate req.product_id with
    | none => exact h
    | some s0 =>
      by_cases hlt : s0.quantity < req.quantity
      · simp only [if_pos hlt]; exact h
      · simp only [if_neg hlt]
        intro s hs
        dsimp only at hs
        rcases mem_updFirst hs with h1 | ⟨s1, h2, h3⟩
        · exact h s h1
        · subst h3
          have : s1 = s0 := by rw [hfs] at h2; exact (Option.some.injEq _ _ ▸ h2).symm ▸ rfl
          subst this
          exact sub_nonneg.mpr (le_of_not_lt hlt)

theorem resetLoop_stocks_pos (plate : String) (uid : Nat) (now : String) :
    ∀ (items : List CarStateItem) (sid mid : Nat),
      ∀ s ∈ (resetLoop plate uid now items sid mid).1, 0 < s.quantity := by
  intro items
  induction items with
  | nil => intro sid mid s hs; cases hs
  | cons it rest ih =>
    intro sid mid s hs
    by_cases hq : it.quantity ≤ 0
    · simp only [resetLoop, if_pos hq] at hs
      exact ih sid mid s hs
    · simp only [resetLoop, if_neg hq] at hs
      rcases List.mem_cons.mp hs with h1 | h1
      · subst h1; exact lt_of_not_le hq
      · exact ih (sid + 1) (mid + 1) s h1

theorem resetLoop_stocks_plate (plate : String) (uid : Nat) (now : String) :
    ∀ (items : List CarStateItem) (sid mid : Nat),
      ∀ s ∈ (resetLoop plate uid now items sid mid).1, s.car_plate = plate := by
  intro items
  induction items with
  | nil => intro sid mid s hs; cases hs
  | cons it rest ih =>
    intro sid mid s hs
    by_cases hq : it.quantity ≤ 0
    · simp only [resetLoop, if_pos hq] at hs
      exact ih sid mid s hs
    · simp only [resetLoop, if_neg hq] at hs
      rcases List.mem_cons.mp hs with h1 | h1
      · subst h1; rfl
      · exact ih (sid + 1) (mid + 1) s h1

theorem resetLoop_stocks_data (plate : String) (uid : Nat) (now : String) :
    ∀ (items : List CarStateItem) (sid mid : Nat),
      ((resetLoop plate uid now items sid mid).1).map
          (fun s => (s.product_id, s.quantity)) =
        (items.filter (fun it => decide (0 < it.quantity))).map
          (fun it => (it.product_id, it.quantity)) := by
  intro items
  induction items with
  | nil => intro sid mid; rfl
  | cons it rest ih =>
    intro sid mid
    by_cases hq : it.quantity ≤ 0
    · have hd : decide (0 < it.quantity) = false := by
        simp [not_lt.mpr hq]
      simp only [resetLoop, if_pos hq, List.filter_cons, hd, Bool.false_eq_true,
        if_neg, ite_false]
      exact ih sid mid
    · have hd : decide (0 < it.quantity) = true := by
        simp [lt_of_not_le hq]
      simp only [resetLoop, if_neg hq, List.filter_cons, hd, ite_true, List.map_cons]
      exact congrArg _ (ih (sid + 1) (mid + 1))

theorem resetLoop_moves_data (plate : String) (uid : Nat) (now : String) :
    ∀ (items : List CarStateItem) (sid mid : Nat),
      ((resetLoop plate uid now items sid mid).2.1).map moveData =
        (items.filter (fun it => decide (0 < it.quantity))).map
          (fun it => (it.product_id, it.quantity, "IN", (none : Option String))) := by
  intro items
  induction items with
  | nil => intro sid mid; rfl
  | cons it rest ih =>
    intro sid mid
    by_cases hq : it.quantity ≤ 0
    · have hd : decide (0 < it.quantity) = false := by
        simp [not_lt.mpr hq]
      simp only [resetLoop, if_pos hq, List.filter_cons, hd, Bool.false_eq_true,
        if_neg, ite_false]
      exact ih sid mid
    · have hd : decide (0 < it.quantity) = true := by
        simp [lt_of_not_le hq]
      simp only [resetLoop, if_neg hq, List.filter_cons, hd, ite_true, List.map_cons]
      exact congrArg _ (ih (sid + 1) (mid + 1))

theorem receiptLoop_moves (db : DB) (u : AppUser) (now : String) (hid : Nat) :
    ∀ (items : List GoodsReceiptItem) (st st' : LoopState),
      receiptLoop db u now hid items st = Except.ok st' →
      ∃ tail, st'.pendMoves = st.pendMoves ++ tail ∧
        tail.map moveData =
          items.map (fun it => (it.product_id, it.quantity, "IN", (none : Option String))) := by
  intro items
  induction items with
  | nil =>
    intro st st' h
    simp only [receiptLoop, Except.ok.injEq] at h
    subst h
    exact ⟨[], (List.append_nil _).symm, rfl⟩
  | cons it rest ih =>
    intro st st' h
    unfold receiptLoop at h
    cases hfp : findProduct db it.product_id with
    | none => rw [hfp] at h; exact absurd h (by simp)
    | some p =>
      rw [hfp] at h
      dsimp only at h
      cases hfs : findStock st.updated u.car_plate it.product_id with
      | none =>
        rw [hfs] at h
        dsimp only at h
        obtain ⟨tail, h1, h2⟩ := ih _ _ h
        refine ⟨StockMovement.mk st.next_move_id now u.id u.car_plate
          it.product_id it.quantity "IN" none :: tail, ?_, ?_⟩
        · rw [h1]; dsimp only; rw [List.append_assoc]; rfl
        · simp only [List.map_cons, h2]; rfl
      | some s0 =>
        rw [hfs] at h
        dsimp only at h
        obtain ⟨tail, h1, h2⟩ := ih _ _ h
        refine ⟨StockMovement.mk st.next_move_id now u.id u.car_plate
          it.product_id it.quantity "IN" none :: tail, ?_, ?_⟩
        · rw [h1]; dsimp only; rw [List.append_assoc]; rfl
        · simp only [List.map_cons, h2]; rfl

theorem receiptLoop_stocks_nonneg (db : DB) (u : AppUser) (now : String) (hid : Nat) :
    ∀ (items : List GoodsReceiptItem) (st st' : LoopState),
      receiptLoop db u now hid items st = Except.ok st' →
      (∀ it ∈ items, 0 ≤ it.quantity) →
      (∀ s ∈ st.updated, 0 ≤ s.quantity) →
      (∀ s ∈ st.pendStocks, 0 ≤ s.quantity) →
      (∀ s ∈ st'.updated, 0 ≤ s.quantity) ∧
      (∀ s ∈ st'.pendStocks, 0 ≤ s.quantity) := by
  intro items
  induction items with
  | nil =>
    intro st st' h _ hu hp
    simp only [receiptLoop, Except.ok.injEq] at h
    subst h
    exact ⟨hu, hp⟩
  | cons it rest ih =>
    intro st st' h hq hu hp
    have hq0 : 0 ≤ it.quantity := hq it (List.mem_cons_self _ _)
    have hqr : ∀ x ∈ rest, 0 ≤ x.quantity :=
      fun x hx => hq x (List.mem_cons_of_mem _ hx)
    unfold receiptLoop at h
    cases hfp : findProduct db it.product_id with
    | none => rw [hfp] at h; exact absurd h (by simp)
    | some p =>
      rw [hfp] at h
      dsimp only at h
      cases hfs : findStock st.updated u.car_plate it.product_id with
      | none =>
        rw [hfs] at h
        dsimp only at h
        refine ih _ _ h hqr hu ?_
        intro s hs
        rcases List.mem_append.mp hs with h1 | h1
        · exact hp s h1
        · rcases List.mem_cons.mp h1 with h2 | h2
          · subst h2; exact hq0
          · cases h2
      | some s0 =>
        rw [hfs] at h
        dsimp only at h
        refine ih _ _ h hqr ?_ hp
        intro s hs
        rcases mem_updFirst hs with h1 | ⟨s1, h2, h3⟩
        · exact hu s h1
        · subst h3
          exact add_nonneg (hu s1 (findStock_decode h2).1) hq0

theorem create_receipt_moves {db : DB} {u : AppUser} {now : String}
    {req : GoodsReceiptRequest} {r : ReceiptResp} {db2 : DB}
    (h : create_goods_receipt db u now req = (Except.ok r, db2)) :
    ∃ tail, db2.movements = db.movements ++ tail ∧
      tail.map moveData =
        req.items.map (fun it => (it.product_id, it.quantity, "IN", (none : Option String))) := by
  unfold create_goods_receipt at h
  cases hd : dateFromIso? req.document_date with
  | none => rw [hd] at h; exact absurd h (by simp)
  | some d =>
    rw [hd] at h
    dsimp only at h
    split at h
    · exact absurd h (by simp)
    · rename_i st heq
      simp only [Prod.mk.injEq] at h
      obtain ⟨-, h2⟩ := h
      subst h2
      obtain ⟨tail, h1, h2⟩ := receiptLoop_moves _ _ _ _ _ _ _ heq
      refine ⟨tail, ?_, h2⟩
      dsimp only
      rw [h1]
      rfl

/-- C3 (amended): every MovementEntry appended by Receipt Document
creation has type IN, quantity equal to the item's quantity and no
place, one entry per receipt item in order; the movement schema has no
receipt-reference column, so the entries carry no back-reference to
the created header. -/
theorem receipt_appends_one_in_entry_per_item (db : DB) (u : AppUser)
    (now : String) (req : GoodsReceiptRequest) (r : ReceiptResp) (db2 : DB)
    (h : create_goods_receipt db u now req = (Except.ok r, db2)) :
    ∃ tail, db2.movements = db.movements ++ tail ∧
      tail.map moveData =
        req.items.map (fun it => (it.product_id, it.quantity, "IN", (none : Option String))) :=
  create_receipt_moves h

/-- C4 (amended): a successful Receive or Issue returns the constant
status body; the new snapshot quantity is persisted but not returned. -/
theorem receive_issue_success_body_is_status_ok :
    (∀ (db : DB) (u : AppUser) (now : String) (req : ReceiveRequest)
        (r : StatusResp) (db2 : DB),
      receive_goods db u now req = (Except.ok r, db2) → r = ⟨"OK"⟩) ∧
    (∀ (db : DB) (u : AppUser) (now : String) (req : IssueRequest)
        (r : StatusResp) (db2 : DB),
      issue_goods db u now req = (Except.ok r, db2) → r = ⟨"OK"⟩) := by
  constructor
  · intro db u now req r db2 h
    unfold receive_goods at h
    cases hfp : findProduct db req.product_id with
    | none => rw [hfp] at h; exact absurd h (by simp)
    | some p =>
      rw [hfp] at h
      cases hfs : findStock db.car_stock u.car_plate req.product_id with
      | none =>
        rw [hfs] at h; dsimp only at h
        simp only [Prod.mk.injEq, Except.ok.injEq] at h
        exact h.1.symm
      | some s =>
        rw [hfs] at h; dsimp only at h
        simp only [Prod.mk.injEq, Except.ok.injEq] at h
        exact h.1.symm
  · intro db u now req r db2 h
    unfold issue_goods at h
    cases hfp : findProduct db req.product_id with
    | none => rw [hfp] at h; exact absurd h (by simp)
    | some p =>
      rw [hfp] at h
      cases hfs : findStock db.car_stock u.car_plate req.product_id with
      | none => rw [hfs] at h; exact absurd h (by simp)
      | some s =>
        rw [hfs] at h; dsimp only at h
        by_cases hlt : s.quantity < req.quantity
        · rw [if_pos hlt] at h; exact absurd h (by simp)
        · rw [if_neg hlt] at h
          simp only [Prod.mk.injEq, Except.ok.injEq] at h
          exact h.1.symm

/-- C5 (amended): with an existing product, Issue fails exactly when no
snapshot row exists or the available quantity is below the requested
one; the snapshot is unchanged on failure; the failure message reports
the available quantity only when a snapshot row exists — the
missing-row failure uses a fixed message without the amount. -/
theorem issue_insufficient_stock_behaviour (db : DB) (u : AppUser)
    (now : String) (req : IssueRequest) (p : Product)
    (hp : findProduct db req.product_id = some p) :
    ((∃ e, (issue_goods db u now req).1 = Except.error e) ↔
      (findStock db.car_stock u.car_plate req.product_id = none ∨
       ∃ s, findStock db.car_stock u.car_plate req.product_id = some s ∧
         s.quantity < req.quantity)) ∧
    (findStock db.car_stock u.car_plate req.product_id = none →
      issue_goods db u now req = (Except.error ⟨400, "Brak produktu w aucie"⟩, db)) ∧
    (∀ s, findStock db.car_stock u.car_plate req.product_id = some s →
      s.quantity < req.quantity →
      issue_goods db u now req =
        (Except.error ⟨400, "Dostępne tylko: " ++ ratStr s.quantity⟩, db)) := by
  unfold issue_goods
  rw [hp]
  cases hfs : findStock db.car_stock u.car_plate req.product_id with
  | none =>
    refine ⟨⟨fun _ => Or.inl rfl, fun _ => ⟨⟨400, "Brak produktu w aucie"⟩, rfl⟩⟩,
      fun _ => rfl, fun s hs => absurd hs (by simp)⟩
  | some s0 =>
    dsimp only
    by_cases hlt : s0.quantity < req.quantity
    · rw [if_pos hlt]
      refine ⟨⟨fun _ => Or.inr ⟨s0, rfl, hlt⟩, fun _ => ⟨_, rfl⟩⟩,
        fun hno => absurd hno (by simp), ?_⟩
      intro s hs hlt2
      rw [Option.some.injEq] at hs
      subst hs
      rfl
    · rw [if_neg hlt]
      refine ⟨⟨?_, ?_⟩, fun hno => absurd hno (by simp), ?_⟩
      · rintro ⟨e, he⟩
        exact absurd he (by simp)
      · rintro (hno | ⟨s, hs, hlt2⟩)
        · exact absurd hno (by simp)
        · rw [Option.some.injEq] at hs
          subst hs
          exact absurd hlt2 hlt
      · intro s hs hlt2
        rw [Option.some.injEq] at hs
        subst hs
        exact absurd hlt2 hlt

/-- C6 (amended): requesting a receipt document fails with 404 NotFound
when the id does not exist, but with 403 Forbidden ("Brak dostępu")
when the document belongs to a different vehicle — for the details
route and the excel export alike. -/
theorem receipt_details_export_access (db : DB) (u : AppUser) (rid : Nat) :
    (db.headers.find? (fun h0 => h0.id == rid) = none →
      get_receipt db u rid = Except.error ⟨404, "Dokument pobrania nie istnieje"⟩ ∧
      export_receipt_excel db u rid = Except.error ⟨404, "Dokument nie istnieje"⟩) ∧
    (∀ h0, db.headers.find? (fun h1 => h1.id == rid) = some h0 →
      h0.car_plate ≠ u.car_plate →
      get_receipt db u rid = Except.error ⟨403, "Brak dostępu"⟩ ∧
      export_receipt_excel db u rid = Except.error ⟨403, "Brak dostępu"⟩) := by
  constructor
  · intro hnone
    unfold get_receipt export_receipt_excel
    rw [hnone]
    exact ⟨rfl, rfl⟩
  · intro h0 hsome hne
    have hb : (h0.car_plate != u.car_plate) = true := by
      simp [bne_iff_ne, hne]
    unfold get_receipt export_receipt_excel
    rw [hsome]
    dsimp only
    rw [if_pos hb, if_pos hb]
    exact ⟨rfl, rfl⟩

/-- C7: a Reset deletes every snapshot row of the caller's vehicle and
replaces them with exactly one fresh row per supplied pair of positive
quantity (zero-quantity pairs are skipped), appending one IN movement
per inserted pair; snapshot rows of other vehicles are untouched. -/
theorem reset_replaces_vehicle_snapshot (db : DB) (u : AppUser) (now : String)
    (items : List CarStateItem) (hq : ∀ it ∈ items, 0 ≤ it.quantity) :
    (((update_car_state db u now items).2.car_stock.filter
        (fun s => s.car_plate == u.car_plate)).map
        (fun s => (s.product_id, s.quantity)) =
      (items.filter (fun it => decide (0 < it.quantity))).map
        (fun it => (it.product_id, it.quantity))) ∧
    ((update_car_state db u now items).2.car_stock.filter
        (fun s => s.car_plate != u.car_plate) =
      db.car_stock.filter (fun s => s.car_plate != u.car_plate)) ∧
    (∃ tail, (update_car_state db u now items).2.movements = db.movements ++ tail ∧
      tail.map moveData =
        (items.filter (fun it => decide (0 < it.quantity))).map
          (fun it => (it.product_id, it.quantity, "IN", (none : Option String)))) := by
  unfold update_car_state
  dsimp only
  refine ⟨?_, ?_, ?_⟩
  · rw [List.filter_append]
    have h1 : (db.car_stock.filter (fun s => s.car_plate != u.car_plate)).filter
        (fun s => s.car_plate == u.car_plate) = [] := by
      rw [List.filter_eq_nil_iff]
      intro a ha
      have := (List.mem_filter.mp ha).2
      simp only [bne_iff_ne, ne_eq] at this
      simp [this]
    have h2 : ((resetLoop u.car_plate u.id now items db.next_stock_id
        db.next_move_id).1).filter (fun s => s.car_plate == u.car_plate) =
        (resetLoop u.car_plate u.id now items db.next_stock_id db.next_move_id).1 := by
      rw [List.filter_eq_self]
      intro a ha
      simp [resetLoop_stocks_plate u.car_plate u.id now items _ _ a ha]
    rw [h1, h2, List.nil_append]
    exact resetLoop_stocks_data u.car_plate u.id now items _ _
  · rw [List.filter_append]
    have h1 : (db.car_stock.filter (fun s => s.car_plate != u.car_plate)).filter
        (fun s => s.car_plate != u.car_plate) =
        db.car_stock.filter (fun s => s.car_plate != u.car_plate) := by
      rw [List.filter_eq_self]
      intro a ha
      exact (List.mem_filter.mp ha).2
    have h2 : ((resetLoop u.car_plate u.id now items db.next_stock_id
        db.next_move_id).1).filter (fun s => s.car_plate != u.car_plate) = [] := by
      rw [List.filter_eq_nil_iff]
      intro a ha
      simp [resetLoop_stocks_plate u.car_plate u.id now items _ _ a ha]
    rw [h1, h2, List.append_nil]
  · exact ⟨(resetLoop u.car_plate u.id now items db.next_stock_id db.next_move_id).2.1,
      rfl, resetLoop_moves_data u.car_plate u.id now items _ _⟩

theorem stockNonneg_reset (db : DB) (u : AppUser) (now : String)
    (items : List CarStateItem) (h : stockNonneg db) :
    stockNonneg (update_car_state db u now items).2 := by
  unfold update_car_state
  intro s hs
  dsimp only at hs
  rcases List.mem_append.mp hs with h1 | h1
  · exact h s (List.mem_filter.mp h1).1
  · exact le_of_lt (resetLoop_stocks_pos u.car_plate u.id now items _ _ s h1)

theorem stockNonneg_receipt (db : DB) (u : AppUser) (now : String)
    (req : GoodsReceiptRequest) (hq : ∀ it ∈ req.items, 0 ≤ it.quantity)
    (h : stockNonneg db) :
    stockNonneg (create_goods_receipt db u now req).2 := by
  unfold create_goods_receipt
  cases hd : dateFromIso? req.document_date with
  | none => exact h
  | some d =>
    dsimp only
    split
    · exact h
    · rename_i st heq
      intro s hs
      dsimp only at hs
      have hinit : ∀ x ∈ db.car_stock, (0:Rat) ≤ x.quantity := h
      obtain ⟨hu, hp⟩ := receiptLoop_stocks_nonneg _ _ _ _ _ _ _ heq hq hinit
        (fun x hx => absurd hx (List.not_mem_nil x))
      rcases List.mem_append.mp hs with h1 | h1
      · exact hu s h1
      · exact hp s h1

theorem stockNonneg_applyOp (db : DB) (op : Op) (hv : opValid op)
    (h : stockNonneg db) : stockNonneg (applyOp db op) := by
  cases op with
  | receive u now r => exact stockNonneg_receive db u now r (le_of_lt hv) h
  | issue u now r => exact stockNonneg_issue db u now r h
  | reset u now its => exact stockNonneg_reset db u now its h
  | receiptDoc u now r =>
    exact stockNonneg_receipt db u now r (fun it hit => le_of_lt (hv it hit)) h

theorem runRI_qty (u : AppUser) (now : String) (pid : Nat) :
    ∀ (ops : List RIOp) (db db2 : DB), runRI db u now pid ops = some db2 →
      stockQty db2 u.car_plate pid =
        stockQty db u.car_plate pid + (ops.map riDelta).sum := by
  intro ops
  induction ops with
  | nil =>
    intro db db2 h
    simp only [runRI, Option.some.injEq] at h
    subst h
    simp
  | cons op rest ih =>
    intro db db2 h
    unfold runRI at h
    cases op with
    | recv q =>
      dsimp only at h
      cases hr : (receive_goods db u now ⟨pid, q⟩).1 with
      | error e => rw [hr] at h; exact absurd h (by simp)
      | ok r =>
        rw [hr] at h
        dsimp only at h
        have hfull : receive_goods db u now ⟨pid, q⟩ =
            (Except.ok r, (receive_goods db u now ⟨pid, q⟩).2) := by
          rw [← hr]
        have hstep := stockQty_receive_ok hfull
        rw [ih _ _ h, hstep]
        simp only [List.map_cons, List.sum_cons, riDelta]
        ring
    | iss q pl =>
      dsimp only at h
      cases hr : (issue_goods db u now ⟨pid, q, pl⟩).1 with
      | error e => rw [hr] at h; exact absurd h (by simp)
      | ok r =>
        rw [hr] at h
        dsimp only at h
        have hfull : issue_goods db u now ⟨pid, q, pl⟩ =
            (Except.ok r, (issue_goods db u now ⟨pid, q, pl⟩).2) := by
          rw [← hr]
        have hstep := (stockQty_issue_ok hfull).1
        rw [ih _ _ h, hstep]
        simp only [List.map_cons, List.sum_cons, riDelta]
        ring

/-- C8: under DTO-validated inputs every operation preserves the
snapshot invariant (every existing row has non-negative quantity), and
for a pair with no snapshot row a sequence of successful Receive/Issue
calls leaves the snapshot quantity equal to the sum of the applied
signed deltas. -/
theorem snapshot_invariant_and_fresh_pair_sum :
    (∀ (db : DB) (ops : List Op), (∀ op ∈ ops, opValid op) →
      stockNonneg db → stockNonneg (applyOps db ops)) ∧
    (∀ (db : DB) (u : AppUser) (now : String) (pid : Nat)
        (ops : List RIOp) (db2 : DB),
      findStock db.car_stock u.car_plate pid = none →
      runRI db u now pid ops = some db2 →
      stockQty db2 u.car_plate pid = (ops.map riDelta).sum) := by
  constructor
  · intro db ops
    induction ops generalizing db with
    | nil => intro _ h; exact h
    | cons op rest ih =>
      intro hv h
      exact ih (applyOp db op)
        (fun o ho => hv o (List.mem_cons_of_mem _ ho))
        (stockNonneg_applyOp db op (hv op (List.mem_cons_self _ _)) h)
  · intro db u now pid ops db2 hfresh hrun
    have h0 : stockQty db u.car_plate pid = 0 := by
      simp [stockQty, hfresh]
    rw [runRI_qty u now pid ops db db2 hrun, h0, zero_add]

theorem movements_receive (db : DB) (u : AppUser) (now : String)
    (req : ReceiveRequest) :
    ((receive_goods db u now req).1.isOk = false ∧
      (receive_goods db u now req).2.movements = db.movements) ∨
    ∃ mv, (receive_goods db u now req).2.movements = db.movements ++ [mv] ∧
      moveData mv = (req.product_id, req.quantity, "IN", (none : Option String)) := by
  unfold receive_goods
  cases hfp : findProduct db req.product_id with
  | none => exact Or.inl ⟨rfl, rfl⟩
  | some p =>
    cases hfs : findStock db.car_stock u.car_plate req.product_id with
    | none => exact Or.inr ⟨_, rfl, rfl⟩
    | some s => exact Or.inr ⟨_, rfl, rfl⟩

theorem movements_issue (db : DB) (u : AppUser) (now : String)
    (req : IssueRequest) :
    ((issue_goods db u now req).1.isOk = false ∧
      (issue_goods db u now req).2.movements = db.movements) ∨
    ∃ mv, (issue_goods db u now req).2.movements = db.movements ++ [mv] ∧
      moveData mv = (req.product_id, -req.quantity, "OUT", some req.place) := by
  unfold issue_goods
  cases hfp : findProduct db req.product_id with
  | none => exact Or.inl ⟨rfl, rfl⟩
  | some p =>
    cases hfs : findStock db.car_stock u.car_plate req.product_id with
    | none => exact Or.inl ⟨rfl, rfl⟩
    | some s =>
      dsimp only
      by_cases hlt : s.quantity < req.quantity
      · rw [if_pos hlt]; exact Or.inl ⟨rfl, rfl⟩
      · rw [if_neg hlt]; exact Or.inr ⟨_, rfl, rfl⟩

theorem movements_reset (db : DB) (u : AppUser) (now : String)
    (items : List CarStateItem) :
    ∃ tail, (update_car_state db u now items).2.movements = db.movements ++ tail ∧
      tail.map moveData =
        (items.filter (fun it => decide (0 < it.quantity))).map
          (fun it => (it.product_id, it.quantity, "IN", (none : Option String))) := by
  unfold update_car_state
  exact ⟨(resetLoop u.car_plate u.id now items db.next_stock_id db.next_move_id).2.1,
    rfl, resetLoop_moves_data u.car_plate u.id now items _ _⟩

theorem movements_receipt_any (db : DB) (u : AppUser) (now : String)
    (req : GoodsReceiptRequest) :
    (create_goods_receipt db u now req).2.movements = db.movements ∨
    ∃ tail, (create_goods_receipt db u now req).2.movements = db.movements ++ tail ∧
      tail.map moveData =
        req.items.map (fun it => (it.product_id, it.quantity, "IN", (none : Option String))) := by
  cases hc : create_goods_receipt db u now req with
  | mk res db2 =>
    cases res with
    | error e =>
      left
      unfold create_goods_receipt at hc
      cases hd : dateFromIso? req.document_date with
      | none =>
        rw [hd] at hc
        simp only [Prod.mk.injEq] at hc
        rw [← hc.2]
      | some d =>
        rw [hd] at hc
        dsimp only at hc
        split at hc
        · simp only [Prod.mk.injEq] at hc
          rw [← hc.2]
        · exact absurd hc (by simp)
    | ok r =>
      right
      obtain ⟨tail, h1, h2⟩ := create_receipt_moves hc
      exact ⟨tail, h1, h2⟩

theorem movements_append_applyOp (db : DB) (op : Op) :
    ∃ tail, (applyOp db op).movements = db.movements ++ tail := by
  cases op with
  | receive u now r =>
    rcases movements_receive db u now r with ⟨-, h⟩ | ⟨mv, h, -⟩
    · exact ⟨[], by rw [List.append_nil]; exact h⟩
    · exact ⟨[mv], h⟩
  | issue u now r =>
    rcases movements_issue db u now r with ⟨-, h⟩ | ⟨mv, h, -⟩
    · exact ⟨[], by rw [List.append_nil]; exact h⟩
    · exact ⟨[mv], h⟩
  | reset u now its =>
    obtain ⟨tail, h, -⟩ := movements_reset db u now its
    exact ⟨tail, h⟩
  | receiptDoc u now r =>
    rcases movements_receipt_any db u now r with h | ⟨tail, h, -⟩
    · exact ⟨[], by rw [List.append_nil]; exact h⟩
    · exact ⟨tail, h⟩

theorem signOk_of_in_data {m : StockMovement} {pid : Nat} {q : Rat}
    (hdata : moveData m = (pid, q, "IN", (none : Option String)))
    (hq : 0 ≤ q) : moveSignOk m := by
  simp only [moveData, Prod.mk.injEq] at hdata
  obtain ⟨-, h2, h3, -⟩ := hdata
  have hty : m.type ≠ "OUT" := by rw [h3]; decide
  simp only [moveSignOk, if_neg hty]
  rw [h2]; exact hq

theorem ledgerSignOk_applyOp (db : DB) (op : Op) (hv : opValid op)
    (h : ledgerSignOk db) : ledgerSignOk (applyOp db op) := by
  cases op with
  | receive u now r =>
    rcases movements_receive db u now r with ⟨-, heq⟩ | ⟨mv, heq, hdata⟩
    · intro m hm; rw [applyOp, heq] at hm; exact h m hm
    · intro m hm
      rw [applyOp, heq] at hm
      rcases List.mem_append.mp hm with h1 | h1
      · exact h m h1
      · rcases List.mem_cons.mp h1 with h2 | h2
        · subst h2; exact signOk_of_in_data hdata (le_of_lt hv)
        · cases h2
  | issue u now r =>
    rcases movements_issue db u now r with ⟨-, heq⟩ | ⟨mv, heq, hdata⟩
    · intro m hm; rw [applyOp, heq] at hm; exact h m hm
    · intro m hm
      rw [applyOp, heq] at hm
      rcases List.mem_append.mp hm with h1 | h1
      · exact h m h1
      · rcases List.mem_cons.mp h1 with h2 | h2
        · subst h2
          simp only [moveData, Prod.mk.injEq] at hdata
          obtain ⟨-, hq2, hty, -⟩ := hdata
          simp only [moveSignOk, if_pos hty]
          rw [hq2]
          exact neg_lt_zero.mpr hv
        · cases h2
  | reset u now its =>
    obtain ⟨tail, heq, hdata⟩ := movements_reset db u now its
    intro m hm
    rw [applyOp, heq] at hm
    rcases List.mem_append.mp hm with h1 | h1
    · exact h m h1
    · have hmem : moveData m ∈ tail.map moveData := List.mem_map_of_mem _ h1
      rw [hdata] at hmem
      obtain ⟨it, hit, hexp⟩ := List.mem_map.mp hmem
      have hpos : 0 < it.quantity := by
        have := (List.mem_filter.mp hit).2
        exact of_decide_eq_true this
      have hexp2 : moveData m = (it.product_id, it.quantity, "IN", (none : Option String)) :=
        hexp.symm
      exact signOk_of_in_data hexp2 (le_of_lt hpos)
  | receiptDoc u now r =>
    rcases movements_receipt_any db u now r with heq | ⟨tail, heq, hdata⟩
    · intro m hm; rw [applyOp, heq] at hm; exact h m hm
    · intro m hm
      rw [applyOp, heq] at hm
      rcases List.mem_append.mp hm with h1 | h1
      · exact h m h1
      · have hmem : moveData m ∈ tail.map moveData := List.mem_map_of_mem _ h1
        rw [hdata] at hmem
        obtain ⟨it, hit, hexp⟩ := List.mem_map.mp hmem
        have hexp2 : moveData m = (it.product_id, it.quantity, "IN", (none : Option String)) :=
          hexp.symm
        exact signOk_of_in_data hexp2 (le_of_lt (hv it hit))

/-- C9: the ledger is append-only (every operation leaves the existing
movement rows as a prefix and only appends), every appended row
satisfies the sign invariant under DTO-validated inputs, and each
operation appends exactly the expected rows: one IN per successful
Receive, one OUT per successful Issue, one IN per inserted Reset pair,
one IN per Receipt Document item. -/
theorem ledger_append_only_and_signed :
    (∀ (db : DB) (op : Op), ∃ tail, (applyOp db op).movements = db.movements ++ tail) ∧
    (∀ (db : DB) (op : Op), opValid op → ledgerSignOk db →
      ledgerSignOk (applyOp db op)) ∧
    (∀ (db : DB) (u : AppUser) (now : String) (req : ReceiveRequest)
        (r : StatusResp) (db2 : DB),
      receive_goods db u now req = (Except.ok r, db2) →
      ∃ mv, db2.movements = db.movements ++ [mv] ∧
        moveData mv = (req.product_id, req.quantity, "IN", (none : Option String))) ∧
    (∀ (db : DB) (u : AppUser) (now : String) (req : IssueRequest)
        (r : StatusResp) (db2 : DB),
      issue_goods db u now req = (Except.ok r, db2) →
      ∃ mv, db2.movements = db.movements ++ [mv] ∧
        moveData mv = (req.product_id, -req.quantity, "OUT", some req.place)) ∧
    (∀ (db : DB) (u : AppUser) (now : String) (items : List CarStateItem),
      ∃ tail, (update_car_state db u now items).2.movements = db.movements ++ tail ∧
        tail.map moveData =
          (items.filter (fun it => decide (0 < it.quantity))).map
            (fun it => (it.product_id, it.quantity, "IN", (none : Option String)))) ∧
    (∀ (db : DB) (u : AppUser) (now : String) (req : GoodsReceiptRequest)
        (r : ReceiptResp) (db2 : DB),
      create_goods_receipt db u now req = (Except.ok r, db2) →
      ∃ tail, db2.movements = db.movements ++ tail ∧
        tail.map moveData =
          req.items.map (fun it => (it.product_id, it.quantity, "IN", (none : Option String)))) := by
  refine ⟨movements_append_applyOp, ledgerSignOk_applyOp, ?_, ?_,
    movements_reset, fun db u now req r db2 h => create_receipt_moves h⟩
  · intro db u now req r db2 h
    rcases movements_receive db u now req with ⟨hbad, -⟩ | ⟨mv, h1, h2⟩
    · rw [h] at hbad; exact absurd hbad (by simp [Except.isOk, Except.toBool])
    · rw [h] at h1; exact ⟨mv, h1, h2⟩
  · intro db u now req r db2 h
    rcases movements_issue db u now req with ⟨hbad, -⟩ | ⟨mv, h1, h2⟩
    · rw [h] at hbad; exact absurd hbad (by simp [Except.isOk, Except.toBool])
    · rw [h] at h1; exact ⟨mv, h1, h2⟩

theorem mem_insertTsDesc {x y : StockMovement × Product}
    {l : List (StockMovement × Product)} :
    y ∈ insertTsDesc x l ↔ y = x ∨ y ∈ l := by
  induction l with
  | nil => simp [insertTsDesc]
  | cons z zs ih =>
    unfold insertTsDesc
    by_cases hc : (compare x.1.timestamp z.1.timestamp == Ordering.gt) = true
    · rw [if_pos hc]
      simp [List.mem_cons]
    · rw [if_neg hc]
      simp only [List.mem_cons, ih]
      tauto

theorem mem_sortTsDesc {y : StockMovement × Product}
    {l : List (StockMovement × Product)} :
    y ∈ sortTsDesc l ↔ y ∈ l := by
  induction l with
  | nil => simp [sortTsDesc]
  | cons z zs ih =>
    simp only [sortTsDesc, mem_insertTsDesc, ih, List.mem_cons]

theorem historyBase_join {db : DB} {u : AppUser} {mp : StockMovement × Product}
    (h : mp ∈ historyBase db u) :
    mp.2.id = mp.1.product_id ∧ mp.1.car_plate = u.car_plate := by
  unfold historyBase at h
  obtain ⟨hmem, hplate⟩ := List.mem_filter.mp h
  obtain ⟨m, hm, heq⟩ := List.mem_filterMap.mp hmem
  rw [Option.map_eq_some'] at heq
  obtain ⟨p, hp, hpair⟩ := heq
  have hpid := List.find?_some hp
  rw [beq_iff_eq] at hpid
  rw [beq_iff_eq] at hplate
  subst hpair
  exact ⟨hpid, hplate⟩

theorem stageTy_filter (tyq : Option String)
    (p : StockMovement × Product → Bool) (l : List (StockMovement × Product)) :
    stageTy tyq (l.filter p) = (stageTy tyq l).filter p := by
  cases tyq with
  | none => rfl
  | some t =>
    unfold stageTy
    dsimp only
    by_cases ht : (t != "") = true
    · rw [if_pos ht, if_pos ht]
      simp only [List.filter_filter]
      congr 1
      funext a
      rw [Bool.and_comm]
    · rw [if_neg ht, if_neg ht]

theorem stageFrom_filter (dfq : Option String)
    (p : StockMovement × Product → Bool) (l : List (StockMovement × Product)) :
    stageFrom dfq (l.filter p) = (stageFrom dfq l).filter p := by
  cases dfq with
  | none => rfl
  | some lo =>
    unfold stageFrom
    dsimp only
    by_cases ht : (lo != "") = true
    · rw [if_pos ht, if_pos ht]
      simp only [List.filter_filter]
      congr 1
      funext a
      rw [Bool.and_comm]
    · rw [if_neg ht, if_neg ht]

theorem stageTo_filter (dtq : Option String)
    (p : StockMovement × Product → Bool) (l : List (StockMovement × Product)) :
    stageTo dtq (l.filter p) = (stageTo dtq l).filter p := by
  cases dtq with
  | none => rfl
  | some hi =>
    unfold stageTo
    dsimp only
    by_cases ht : (hi != "") = true
    · rw [if_pos ht, if_pos ht]
      simp only [List.filter_filter]
      congr 1
      funext a
      rw [Bool.and_comm]
    · rw [if_neg ht, if_neg ht]

theorem mem_of_stageTy {tyq : Option String} {l : List (StockMovement × Product)}
    {mp : StockMovement × Product} (h : mp ∈ stageTy tyq l) : mp ∈ l := by
  cases tyq with
  | none => exact h
  | some t =>
    unfold stageTy at h
    dsimp only at h
    by_cases ht : (t != "") = true
    · rw [if_pos ht] at h; exact List.mem_of_mem_filter h
    · rw [if_neg ht] at h; exact h

theorem mem_of_stageFrom {dfq : Option String} {l : List (StockMovement × Product)}
    {mp : StockMovement × Product} (h : mp ∈ stageFrom dfq l) : mp ∈ l := by
  cases dfq with
  | none => exact h
  | some lo =>
    unfold stageFrom at h
    dsimp only at h
    by_cases ht : (lo != "") = true
    · rw [if_pos ht] at h; exact List.mem_of_mem_filter h
    · rw [if_neg ht] at h; exact h

theorem mem_of_stageTo {dtq : Option String} {l : List (StockMovement × Product)}
    {mp : StockMovement × Product} (h : mp ∈ stageTo dtq l) : mp ∈ l := by
  cases dtq with
  | none => exact h
  | some hi =>
    unfold stageTo at h
    dsimp only at h
    by_cases ht : (hi != "") = true
    · rw [if_pos ht] at h; exact List.mem_of_mem_filter h
    · rw [if_neg ht] at h; exact h

theorem mem_of_stagePid {pidq : Option Nat} {l : List (StockMovement × Product)}
    {mp : StockMovement × Product} (h : mp ∈ stagePid pidq l) : mp ∈ l := by
  cases pidq with
  | none => exact h
  | some pid =>
    unfold stagePid at h
    dsimp only at h
    by_cases ht : (pid != 0) = true
    · rw [if_pos ht] at h; exact List.mem_of_mem_filter h
    · rw [if_neg ht] at h; exact h

/-- C10: in the History query a supplied product_id of 0 or an empty
type string is falsy, so the filter is skipped entirely (the result
equals the unfiltered query); any truthy value is applied as an
equality predicate on the vehicle-scoped rows. -/
theorem history_truthiness_and_equality_filters :
    (∀ (db : DB) (u : AppUser) (tyq dfq dtq : Option String),
      history db u (some 0) tyq dfq dtq = history db u none tyq dfq dtq) ∧
    (∀ (db : DB) (u : AppUser) (pidq : Option Nat) (dfq dtq : Option String),
      history db u pidq (some "") dfq dtq = history db u pidq none dfq dtq) ∧
    (∀ (db : DB) (u : AppUser) (tyq dfq dtq : Option String) (pid : Nat)
        (row : HistoryRow), pid ≠ 0 →
      (row ∈ history db u (some pid) tyq dfq dtq ↔
        row.product_id = pid ∧ row ∈ history db u none tyq dfq dtq)) ∧
    (∀ (db : DB) (u : AppUser) (pidq : Option Nat) (dfq dtq : Option String)
        (t : String) (row : HistoryRow), t ≠ "" →
      (row ∈ history db u pidq (some t) dfq dtq ↔
        row.type = t ∧ row ∈ history db u pidq none dfq dtq)) := by
  refine ⟨?_, ?_, ?_, ?_⟩
  · intro db u tyq dfq dtq
    rfl
  · intro db u pidq dfq dtq
    unfold history
    simp only [stageTy]
    rfl
  · intro db u tyq dfq dtq pid row hpid
    have hb : (pid != 0) = true := by simp [hpid]
    unfold history
    simp only [stagePid]
    rw [if_pos hb]
    rw [stageTy_filter, stageFrom_filter, stageTo_filter]
    constructor
    · intro hr
      obtain ⟨mp, hmp, hf⟩ := List.mem_map.mp hr
      rw [mem_sortTsDesc] at hmp
      obtain ⟨hmem, hppid⟩ := List.mem_filter.mp hmp
      have hbase : mp ∈ historyBase db u :=
        mem_of_stageTy (mem_of_stageFrom (mem_of_stageTo hmem))
      have hjoin := historyBase_join hbase
      constructor
      · rw [← hf]
        dsimp only
        rw [hjoin.1]
        exact beq_iff_eq.mp hppid
      · exact List.mem_map.mpr ⟨mp, mem_sortTsDesc.mpr hmem, hf⟩
    · rintro ⟨hpe, hr⟩
      obtain ⟨mp, hmp, hf⟩ := List.mem_map.mp hr
      rw [mem_sortTsDesc] at hmp
      have hbase : mp ∈ historyBase db u :=
        mem_of_stageTy (mem_of_stageFrom (mem_of_stageTo hmp))
      have hjoin := historyBase_join hbase
      refine List.mem_map.mpr ⟨mp, mem_sortTsDesc.mpr (List.mem_filter.mpr ⟨hmp, ?_⟩), hf⟩
      rw [beq_iff_eq, ← hjoin.1]
      rw [← hf] at hpe
      exact hpe
  · intro db u pidq dfq dtq t row ht
    have hb : (t != "") = true := by simp [ht]
    unfold history
    simp only [stageTy]
    rw [if_pos hb]
    rw [stageFrom_filter, stageTo_filter]
    constructor
    · intro hr
      obtain ⟨mp, hmp, hf⟩ := List.mem_map.mp hr
      rw [mem_sortTsDesc] at hmp
      obtain ⟨hmem, hpty⟩ := List.mem_filter.mp hmp
      constructor
      · rw [← hf]
        exact beq_iff_eq.mp hpty
      · exact List.mem_map.mpr ⟨mp, mem_sortTsDesc.mpr hmem, hf⟩
    · rintro ⟨hte, hr⟩
      obtain ⟨mp, hmp, hf⟩ := List.mem_map.mp hr
      rw [mem_sortTsDesc] at hmp
      refine List.mem_map.mpr ⟨mp, mem_sortTsDesc.mpr (List.mem_filter.mpr ⟨hmp, ?_⟩), hf⟩
      rw [beq_iff_eq]
      rw [← hf] at hte
      exact hte

theorem mem_dedupPids {a : Nat} : ∀ {l : List Nat}, a ∈ dedupPids l ↔ a ∈ l := by
  intro l
  induction l with
  | nil => simp [dedupPids]
  | cons x xs ih =>
    unfold dedupPids
    by_cases hx : x ∈ xs
    · rw [if_pos hx]
      rw [ih, List.mem_cons]
      constructor
      · exact Or.inr
      · rintro (h | h)
        · subst h; exact hx
        · exact h
    · rw [if_neg hx]
      simp only [List.mem_cons, ih]

theorem nodup_dedupPids : ∀ (l : List Nat), (dedupPids l).Nodup := by
  intro l
  induction l with
  | nil => simp [dedupPids]
  | cons x xs ih =>
    unfold dedupPids
    by_cases hx : x ∈ xs
    · rw [if_pos hx]; exact ih
    · rw [if_neg hx]
      rw [List.nodup_cons]
      exact ⟨fun hmem => hx (mem_dedupPids.mp hmem), ih⟩

theorem filterMap_report_sublist (g : Nat → Option ReportRow)
    (hg : ∀ pid row, g pid = some row → row.product_id = pid) :
    ∀ l : List Nat, ((l.filterMap g).map (fun r => r.product_id)).Sublist l := by
  intro l
  induction l with
  | nil => simp
  | cons x xs ih =>
    rw [List.filterMap_cons]
    cases hx : g x with
    | none => exact ih.cons x
    | some row =>
      rw [List.map_cons, hg x row hx]
      exact ih.cons₂ x

/-- C2: the Consumption Report (modelled from the spec; the endpoint is
not among the provided source files) aggregates exactly the OUT-type
movements of the caller's vehicle inside the half-open window
[date_from 00:00, date_to+1 00:00): each returned row carries the
negated OUT-sum of its product and is positive, every product with a
positive negated OUT-sum in the window appears, products appear at most
once, and the call fails with NoData exactly when no product qualifies. -/
theorem consumption_report_characterization (db : DB) (u : AppUser)
    (dfrom dto : CalDate) :
    (∀ l, consumption_report db u dfrom dto = Except.ok l →
      ((∀ row ∈ l,
          row.used = usedQty db u.car_plate dfrom dto row.product_id ∧
          0 < row.used ∧
          row.product_id ∈ (db.movements.filter (inReportWindow u.car_plate dfrom dto)).map
            (fun m => m.product_id)) ∧
        (∀ pid, pid ∈ (db.movements.filter (inReportWindow u.car_plate dfrom dto)).map
            (fun m => m.product_id) →
          0 < usedQty db u.car_plate dfrom dto pid →
          ∃ row ∈ l, row.product_id = pid ∧
            row.used = usedQty db u.car_plate dfrom dto pid) ∧
        (l.map (fun r => r.product_id)).Nodup ∧ l ≠ [])) ∧
    (∀ e, consumption_report db u dfrom dto = Except.error e →
      e = ⟨404, "NoData"⟩ ∧
      ∀ pid, pid ∈ (db.movements.filter (inReportWindow u.car_plate dfrom dto)).map
          (fun m => m.product_id) →
        usedQty db u.car_plate dfrom dto pid ≤ 0) := by
  unfold consumption_report
  dsimp only
  constructor
  · intro l hl
    split at hl
    · exact absurd hl (by simp)
    · rename_i hne
      rw [Except.ok.injEq] at hl
      subst hl
      refine ⟨?_, ?_, ?_, fun hnil => hne (List.isEmpty_iff.mpr hnil)⟩
      · intro row hrow
        obtain ⟨pid, hpid, hg⟩ := List.mem_filterMap.mp hrow
        by_cases hle : usedQty db u.car_plate dfrom dto pid ≤ 0
        · rw [if_pos hle] at hg; cases hg
        · rw [if_neg hle, Option.some.injEq] at hg
          subst hg
          exact ⟨rfl, not_le.mp hle, mem_dedupPids.mp hpid⟩
      · intro pid hpid hpos
        refine ⟨⟨pid, usedQty db u.car_plate dfrom dto pid⟩,
          List.mem_filterMap.mpr ⟨pid, mem_dedupPids.mpr hpid, ?_⟩, rfl, rfl⟩
        rw [if_neg (not_le.mpr hpos)]
      · refine List.Nodup.sublist (filterMap_report_sublist _ ?_ _)
          (nodup_dedupPids _)
        intro pid row hg
        by_cases hle : usedQty db u.car_plate dfrom dto pid ≤ 0
        · rw [if_pos hle] at hg; cases hg
        · rw [if_neg hle, Option.some.injEq] at hg
          subst hg
          rfl
  · intro e he
    split at he
    · rename_i hemp
      rw [Except.error.injEq] at he
      refine ⟨he.symm, ?_⟩
      have hnil := List.isEmpty_iff.mp hemp
      intro pid hpid
      by_contra hgt
      have hpos := not_le.mp hgt
      have hmem : (⟨pid, usedQty db u.car_plate dfrom dto pid⟩ : ReportRow) ∈
          (dedupPids ((db.movements.filter (inReportWindow u.car_plate dfrom dto)).map
            (fun m => m.product_id))).filterMap (fun pid =>
              if usedQty db u.car_plate dfrom dto pid ≤ 0 then none
              else some (ReportRow.mk pid (usedQty db u.car_plate dfrom dto pid))) :=
        List.mem_filterMap.mpr ⟨pid, mem_dedupPids.mpr hpid, by
          rw [if_neg (not_le.mpr hpos)]⟩
      rw [hnil] at hmem
      cases hmem
    · exact absurd he (by simp)

/-! ## Concrete witnesses -/

/-- Witness for C2: on the spec's example ledger the report returns
product 7 with used quantity 8 (the IN entry does not offset), and the
characterization holds there. -/
theorem consumption_report_characterization_witness :
    (consumption_report repDb exUser ⟨2024, 5, 1⟩ ⟨2024, 5, 31⟩ =
      Except.ok [⟨7, 8⟩]) ∧
    (∀ row ∈ [(⟨7, 8⟩ : ReportRow)],
      row.used = usedQty repDb exUser.car_plate ⟨2024, 5, 1⟩ ⟨2024, 5, 31⟩ row.product_id ∧
      0 < row.used ∧
      row.product_id ∈ (repDb.movements.filter
        (inReportWindow exUser.car_plate ⟨2024, 5, 1⟩ ⟨2024, 5, 31⟩)).map
          (fun m => m.product_id)) := by
  have hA : repDb.movements.filter
      (inReportWindow exUser.car_plate ⟨2024, 5, 1⟩ ⟨2024, 5, 31⟩) =
      [⟨1, "2024-05-10 08:00:00", 1, "WX12345", 7, -3, "OUT", some "Budowa A"⟩,
       ⟨2, "2024-05-12 09:30:00", 1, "WX12345", 7, -5, "OUT", some "Budowa B"⟩] := by
    decide
  have hu : usedQty repDb exUser.car_plate ⟨2024, 5, 1⟩ ⟨2024, 5, 31⟩ 7 = 8 := by
    unfold usedQty
    rw [hA]
    norm_num [List.filter_cons, List.map_cons, List.map_nil, List.sum_cons, List.sum_nil]
  have h : consumption_report repDb exUser ⟨2024, 5, 1⟩ ⟨2024, 5, 31⟩ =
      Except.ok [⟨7, 8⟩] := by
    unfold consumption_report
    dsimp only
    rw [hA]
    norm_num [dedupPids, List.filterMap_cons, hu]
  exact ⟨h, ((consumption_report_characterization repDb exUser
    ⟨2024, 5, 1⟩ ⟨2024, 5, 31⟩).1 [⟨7, 8⟩] h).1⟩

/-- Witness for C3 (amended): a concrete two-item receipt appends two
IN movements matching the items. -/
theorem receipt_appends_one_in_entry_per_item_witness :
    ∃ tail,
      (create_goods_receipt exDb exUser "2024-05-10 09:00:00"
        ⟨"2024-05-10", "Jan", "Adam", [⟨1, 2⟩, ⟨2, 3⟩]⟩).2.movements =
        exDb.movements ++ tail ∧
      tail.map moveData =
        ([⟨1, 2⟩, ⟨2, 3⟩] : List GoodsReceiptItem).map
          (fun it => (it.product_id, it.quantity, "IN", (none : Option String))) := by
  have h1 : (create_goods_receipt exDb exUser "2024-05-10 09:00:00"
      ⟨"2024-05-10", "Jan", "Adam", [⟨1, 2⟩, ⟨2, 3⟩]⟩).1 =
      Except.ok ⟨"OK", 1⟩ := rfl
  have h : create_goods_receipt exDb exUser "2024-05-10 09:00:00"
      ⟨"2024-05-10", "Jan", "Adam", [⟨1, 2⟩, ⟨2, 3⟩]⟩ =
      (Except.ok ⟨"OK", 1⟩, (create_goods_receipt exDb exUser "2024-05-10 09:00:00"
        ⟨"2024-05-10", "Jan", "Adam", [⟨1, 2⟩, ⟨2, 3⟩]⟩).2) := by
    rw [← h1]
  exact receipt_appends_one_in_entry_per_item exDb exUser "2024-05-10 09:00:00"
    ⟨"2024-05-10", "Jan", "Adam", [⟨1, 2⟩, ⟨2, 3⟩]⟩ ⟨"OK", 1⟩ _ h

/-- Witness for C4 (amended): a concrete successful Receive returns the
constant status body. -/
theorem receive_issue_success_body_witness :
    (receive_goods exDb exUser "t1" ⟨1, 10⟩ =
      (Except.ok ⟨"OK"⟩, (receive_goods exDb exUser "t1" ⟨1, 10⟩).2)) ∧
    ((⟨"OK"⟩ : StatusResp) = ⟨"OK"⟩) := by
  have h1 : (receive_goods exDb exUser "t1" ⟨1, 10⟩).1 = Except.ok ⟨"OK"⟩ := rfl
  have h : receive_goods exDb exUser "t1" ⟨1, 10⟩ =
      (Except.ok ⟨"OK"⟩, (receive_goods exDb exUser "t1" ⟨1, 10⟩).2) := by
    rw [← h1]
  exact ⟨h, receive_issue_success_body_is_status_ok.1 exDb exUser "t1"
    ⟨1, 10⟩ ⟨"OK"⟩ _ h⟩

/-- Witness for C5 (amended): with product 1 in the catalog and no
snapshot row, the Issue failure is the fixed missing-row message with
the database unchanged. -/
theorem issue_insufficient_stock_behaviour_witness :
    (findProduct exDb 1 =
      some ⟨1, "Kabel YDY 3x1,5", "Elektryka", "KAB-015", "m", none⟩) ∧
    (findStock exDb.car_stock exUser.car_plate 1 = none →
      issue_goods exDb exUser "t1" ⟨1, 3, "SiteA"⟩ =
        (Except.error ⟨400, "Brak produktu w aucie"⟩, exDb)) := by
  refine ⟨rfl, ?_⟩
  intro hnone
  exact (issue_insufficient_stock_behaviour exDb exUser "t1" ⟨1, 3, "SiteA"⟩
    ⟨1, "Kabel YDY 3x1,5", "Elektryka", "KAB-015", "m", none⟩ rfl).2.1 hnone

/-- Witness for C6 (amended): a concrete foreign-vehicle document gives
403 on both routes. -/
theorem receipt_details_export_access_witness :
    get_receipt { exDb with
        headers := [⟨1, "t0", "2024-05-10", "Jan", "Adam", "GD99999", 2⟩],
        next_header_id := 2 } exUser 1 = Except.error ⟨403, "Brak dostępu"⟩ ∧
    export_receipt_excel { exDb with
        headers := [⟨1, "t0", "2024-05-10", "Jan", "Adam", "GD99999", 2⟩],
        next_header_id := 2 } exUser 1 = Except.error ⟨403, "Brak dostępu"⟩ :=
  (receipt_details_export_access { exDb with
      headers := [⟨1, "t0", "2024-05-10", "Jan", "Adam", "GD99999", 2⟩],
      next_header_id := 2 } exUser 1).2
    ⟨1, "t0", "2024-05-10", "Jan", "Adam", "GD99999", 2⟩ rfl (by decide)

/-- Witness for C7: a concrete reset with one positive and one zero
pair keeps exactly the positive pair. -/
theorem reset_replaces_vehicle_snapshot_witness :
    (∀ it ∈ ([⟨1, 6⟩, ⟨2, 0⟩] : List CarStateItem), 0 ≤ it.quantity) ∧
    ((((update_car_state exDb exUser "t2" [⟨1, 6⟩, ⟨2, 0⟩]).2.car_stock.filter
        (fun s => s.car_plate == exUser.car_plate)).map
        (fun s => (s.product_id, s.quantity)) =
      (([⟨1, 6⟩, ⟨2, 0⟩] : List CarStateItem).filter
        (fun it => decide (0 < it.quantity))).map
          (fun it => (it.product_id, it.quantity))) ∧
    ((update_car_state exDb exUser "t2" [⟨1, 6⟩, ⟨2, 0⟩]).2.car_stock.filter
        (fun s => s.car_plate != exUser.car_plate) =
      exDb.car_stock.filter (fun s => s.car_plate != exUser.car_plate)) ∧
    (∃ tail, (update_car_state exDb exUser "t2" [⟨1, 6⟩, ⟨2, 0⟩]).2.movements =
        exDb.movements ++ tail ∧
      tail.map moveData =
        (([⟨1, 6⟩, ⟨2, 0⟩] : List CarStateItem).filter
          (fun it => decide (0 < it.quantity))).map
            (fun it => (it.product_id, it.quantity, "IN", (none : Option String))))) :=
  ⟨by decide, reset_replaces_vehicle_snapshot exDb exUser "t2"
    [⟨1, 6⟩, ⟨2, 0⟩] (by decide)⟩

/-- Witness for C8: a concrete valid operation sequence preserves the
snapshot invariant, and a concrete successful Receive/Issue run on a
fresh pair sums its deltas. -/
theorem snapshot_invariant_and_fresh_pair_sum_witness :
    ((∀ op ∈ [Op.receive exUser "t1" ⟨1, 10⟩,
        Op.issue exUser "t2" ⟨1, 4, "SiteA"⟩,
        Op.reset exUser "t3" [⟨2, 5⟩],
        Op.receiptDoc exUser "t4" ⟨"2024-05-10", "Jan", "Adam", [⟨1, 3⟩]⟩],
        opValid op) ∧
      stockNonneg exDb ∧
      stockNonneg (applyOps exDb [Op.receive exUser "t1" ⟨1, 10⟩,
        Op.issue exUser "t2" ⟨1, 4, "SiteA"⟩,
        Op.reset exUser "t3" [⟨2, 5⟩],
        Op.receiptDoc exUser "t4" ⟨"2024-05-10", "Jan", "Adam", [⟨1, 3⟩]⟩])) ∧
    (findStock exDb.car_stock exUser.car_plate 1 = none ∧
      ∃ db2, runRI exDb exUser "t0" 1 [RIOp.recv 10, RIOp.iss 4 "SiteA"] = some db2 ∧
        stockQty db2 exUser.car_plate 1 =
          (([RIOp.recv 10, RIOp.iss 4 "SiteA"]).map riDelta).sum) := by
  refine ⟨⟨by decide, by decide, ?_⟩, rfl, ?_⟩
  · exact snapshot_invariant_and_fresh_pair_sum.1 exDb _ (by decide) (by decide)
  · exact ⟨_, rfl, snapshot_invariant_and_fresh_pair_sum.2 exDb exUser "t0" 1
      [RIOp.recv 10, RIOp.iss 4 "SiteA"] _ rfl rfl⟩

/-- Witness for C9: a concrete valid Receive preserves the sign
invariant and appends exactly one IN entry. -/
theorem ledger_append_only_and_signed_witness :
    (opValid (Op.receive exUser "t1" ⟨1, 10⟩) ∧ ledgerSignOk exDb ∧
      ledgerSignOk (applyOp exDb (Op.receive exUser "t1" ⟨1, 10⟩))) ∧
    ∃ mv, (receive_goods exDb exUser "t1" ⟨1, 10⟩).2.movements =
        exDb.movements ++ [mv] ∧
      moveData mv = (1, 10, "IN", (none : Option String)) := by
  have h1 : (receive_goods exDb exUser "t1" ⟨1, 10⟩).1 = Except.ok ⟨"OK"⟩ := rfl
  have h : receive_goods exDb exUser "t1" ⟨1, 10⟩ =
      (Except.ok ⟨"OK"⟩, (receive_goods exDb exUser "t1" ⟨1, 10⟩).2) := by
    rw [← h1]
  refine ⟨⟨by decide, by decide, ?_⟩, ?_⟩
  · exact ledger_append_only_and_signed.2.1 exDb
      (Op.receive exUser "t1" ⟨1, 10⟩) (by decide) (by decide)
  · exact ledger_append_only_and_signed.2.2.1 exDb exUser "t1" ⟨1, 10⟩ ⟨"OK"⟩ _ h

/-- Witness for C10: on a concrete database the truthy filters behave
as equality predicates for the row present. -/
theorem history_truthiness_and_equality_filters_witness :
    ((1 : Nat) ≠ 0 ∧
      ((⟨1, "2024-05-10 09:00:00", 1, "Kabel YDY 3x1,5", "KAB-015", 5, "IN", none⟩ :
          HistoryRow) ∈ history histDb exUser (some 1) none none none ↔
        (⟨1, "2024-05-10 09:00:00", 1, "Kabel YDY 3x1,5", "KAB-015", 5, "IN", none⟩ :
          HistoryRow).product_id = 1 ∧
        (⟨1, "2024-05-10 09:00:00", 1, "Kabel YDY 3x1,5", "KAB-015", 5, "IN", none⟩ :
          HistoryRow) ∈ history histDb exUser none none none none)) ∧
    ("IN" ≠ "" ∧
      ((⟨1, "2024-05-10 09:00:00", 1, "Kabel YDY 3x1,5", "KAB-015", 5, "IN", none⟩ :
          HistoryRow) ∈ history histDb exUser none (some "IN") none none ↔
        (⟨1, "2024-05-10 09:00:00", 1, "Kabel YDY 3x1,5", "KAB-015", 5, "IN", none⟩ :
          HistoryRow).type = "IN" ∧
        (⟨1, "2024-05-10 09:00:00", 1, "Kabel YDY 3x1,5", "KAB-015", 5, "IN", none⟩ :
          HistoryRow) ∈ history histDb exUser none none none none)) :=
  ⟨⟨by decide, history_truthiness_and_equality_filters.2.2.1 histDb exUser
      none none none 1 _ (by decide)⟩,
   ⟨by decide, history_truthiness_and_equality_filters.2.2.2 histDb exUser
      none none none "IN" _ (by decide)⟩⟩
